import Mathlib

/-!
Verification of the IR construction pipeline of a FHIR code generator:
the StructureDefinition parser (`parse`, `elements_to_properties`,
`to_resource_type`, `to_datatype`), the caching schema resolver
(`resolve_type`), and the type-graph builder (`build`), together with the
IR data model (`TypeGraph`, `Property`, `CardinalityRange`, ...).

The Rust source is embedded shallowly: JSON values become an inductive
`Json`; `HashMap`/`IndexMap` become association lists with the map's
insert semantics; machine integers (`u32`, `u64`) become `Nat` with the
explicit truncations the source performs; fallible functions return
`Except`; the mutable parser/resolver caches are threaded explicitly.
-/

namespace Octofhir

/-! ## Character-list helpers mirroring the Rust string operations -/
/-- Splits a character list at every occurrence of `c`, keeping empty
segments, exactly like Rust `str::split(c)`: the result always has
`count c + 1` segments. -/
def splitOnChar (c : Char) : List Char → List (List Char)
  | [] => [[]]
  | a :: rest =>
    match splitOnChar c rest with
    | [] => [[]]
    | h :: t => if a = c then [] :: h :: t else (a :: h) :: t

/-- Tests whether a name ends with the three characters `[x]`, modelling
Rust `name.ends_with("[x]")`. -/
def ends_with_x (name : String) : Bool :=
  match name.data.reverse with
  | ']' :: 'x' :: '[' :: _ => true
  | _ => false

/-- Strips every leading copy of the reversed pattern `[x]` from a
reversed character list; helper for `trim_end_matches_x`. -/
def revXStrip : List Char → List Char
  | ']' :: 'x' :: '[' :: rest => revXStrip rest
  | l => l

/-- Removes every trailing occurrence of `[x]`, modelling Rust
`name.trim_end_matches("[x]")` (which strips the suffix repeatedly). -/
def trim_end_matches_x (name : String) : String :=
  String.mk (revXStrip name.data.reverse).reverse

/-- First segment of `path` before a `.`, falling back to `path` itself,
modelling `path.split('.').next().unwrap_or(path)`. -/
def first_dot_segment (path : List Char) : List Char :=
  (splitOnChar '.' path).headD path

/-- Last segment of a URL after the final `/`, modelling
`url.split('/').last()` (always `some`, since a split is never empty). -/
def last_slash_segment (url : String) : Option String :=
  ((splitOnChar '/' url.data).getLast?).map String.mk

/-! ## JSON model (serde_json `Value`)

Numbers are modelled as unbounded `Int`: the pipeline performs no
arithmetic on them, only the explicit `as u64`/`as u32` conversions,
which are modelled with their bounds and truncation spelled out. -/
inductive Json where
  | null
  | bool (b : Bool)
  | num (n : Int)
  | str (s : String)
  | arr (items : List Json)
  | obj (entries : List (String × Json))

/-- Field lookup on a JSON value: only objects have fields, mirroring
serde_json `Value::get` with a string index. -/
def Json.get : Json → String → Option Json
  | .obj entries, key => entries.lookup key
  | _, _ => none

/-- Mirrors serde_json `Value::as_str`. -/
def Json.as_str : Json → Option String
  | .str s => some s
  | _ => none

/-- Mirrors serde_json `Value::as_bool`. -/
def Json.as_bool : Json → Option Bool
  | .bool b => some b
  | _ => none

/-- Mirrors serde_json `Value::as_u64`: defined only on non-negative
integers that fit in 64 bits. -/
def Json.as_u64 : Json → Option Nat
  | .num n => if 0 ≤ n ∧ n < 2 ^ 64 then some n.toNat else none
  | _ => none

/-- Mirrors serde_json `Value::as_array`. -/
def Json.as_array : Json → Option (List Json)
  | .arr items => some items
  | _ => none

/-- Convenience composition `json.get(k).and_then(|v| v.as_str())`. -/
def Json.get_str (j : Json) (key : String) : Option String :=
  (j.get key).bind Json.as_str

/-! ## IR data model (`core/ir.rs`) -/
/-- Cardinality range of a property: `max = none` means unbounded. -/
structure CardinalityRange where
  min : Nat
  max : Option Nat
deriving DecidableEq, Repr

/-- Binding strength of a value-set binding. -/
inductive BindingStrength where
  | required
  | extensible
  | preferred
  | example
deriving DecidableEq, Repr

/-- ValueSet binding for coded elements. -/
structure ValueSetBinding where
  strength : BindingStrength
  value_set : String
  description : Option String
deriving DecidableEq, Repr

/-- Constraint severity. -/
inductive ConstraintSeverity where
  | error
  | warning
deriving DecidableEq, Repr

/-- Invariant constraint rule attached to a property. -/
structure InvariantRule where
  key : String
  severity : ConstraintSeverity
  human : String
  expression : Option String
  xpath : Option String
deriving DecidableEq, Repr

/-- Example value attached to a property. -/
structure Example where
  label : String
  value : Json

/-- Documentation block shared by all IR types. -/
structure Documentation where
  short : String
  definition : String
  comments : Option String
  requirements : Option String
  usage_notes : List String
  url : Option String
deriving DecidableEq, Repr

/-- Search parameter type enumeration. -/
inductive SearchParamType where
  | number
  | date
  | string
  | token
  | reference
  | composite
  | quantity
  | uri
  | special
deriving DecidableEq, Repr

/-- Search parameter definition attached to a resource. -/
structure SearchParameter where
  code : String
  param_type : SearchParamType
  description : String
  expression : Option String
  target_types : List String
deriving DecidableEq, Repr

mutual

/-- Type of a property: the closed variant set of `PropertyType` in
`core/ir.rs`. `backboneElement` carries nested flattened properties. -/
inductive PropertyType where
  | primitive (type_name : String)
  | complex (type_name : String)
  | reference (target_types : List String)
  | backboneElement (properties : List Property)
  | choice (types : List String)

/-- One schema element flattened to a single field; fields in the order
of the Rust struct `Property`: name, path, property_type, cardinality,
is_choice, choice_types, is_modifier, is_summary, binding, constraints,
short_description, definition, comments, examples. -/
inductive Property where
  | mk (name : String) (path : String) (property_type : PropertyType)
       (cardinality : CardinalityRange) (is_choice : Bool)
       (choice_types : List String) (is_modifier : Bool) (is_summary : Bool)
       (binding : Option ValueSetBinding) (constraints : List InvariantRule)
       (short_description : String) (definition : String)
       (comments : Option String) (examples : List Example)

end

/-- Property field accessor: name. -/
def Property.name : Property → String
  | .mk n _ _ _ _ _ _ _ _ _ _ _ _ _ => n

/-- Property field accessor: original dotted path. -/
def Property.path : Property → String
  | .mk _ p _ _ _ _ _ _ _ _ _ _ _ _ => p

/-- Property field accessor: property type variant. -/
def Property.property_type : Property → PropertyType
  | .mk _ _ t _ _ _ _ _ _ _ _ _ _ _ => t

/-- Property field accessor: cardinality. -/
def Property.cardinality : Property → CardinalityRange
  | .mk _ _ _ c _ _ _ _ _ _ _ _ _ _ => c

/-- Property field accessor: choice flag. -/
def Property.is_choice : Property → Bool
  | .mk _ _ _ _ c _ _ _ _ _ _ _ _ _ => c

/-- Property field accessor: choice types. -/
def Property.choice_types : Property → List String
  | .mk _ _ _ _ _ ts _ _ _ _ _ _ _ _ => ts

/-! ## Parser intermediate types (`core/parser.rs`) -/
/-- Structure kind of a StructureDefinition. -/
inductive StructureKind where
  | resource
  | complexType
  | primitiveType
  | logicalModel
deriving DecidableEq, Repr

/-- Cardinality max value as parsed from an element. -/
inductive Cardinality where
  | finite (n : Nat)
  | unbounded
deriving DecidableEq, Repr

/-- Element type information: a code plus, for `Reference` types, the
target profile URLs. -/
structure ElementType where
  code : String
  target_profiles : List String
deriving DecidableEq, Repr

/-- Value set binding as parsed from an element. -/
structure Binding where
  strength : String
  value_set : Option String
  description : Option String
deriving DecidableEq, Repr

/-- Constraint/invariant as parsed from an element. -/
structure Constraint where
  key : String
  severity : String
  human : String
  expression : Option String
  xpath : Option String
deriving DecidableEq, Repr

/-- Element definition from a StructureDefinition. -/
structure ElementDefinition where
  path : String
  short : Option String
  definition : Option String
  min : Nat
  max : Cardinality
  types : List ElementType
  binding : Option Binding
  constraints : List Constraint
deriving DecidableEq, Repr

/-- Parsed structure, the intermediate form before IR conversion. -/
structure ParsedStructure where
  url : String
  name : String
  kind : StructureKind
  base_definition : Option String
  is_abstract : Bool
  elements : List ElementDefinition
  differential : Bool
deriving DecidableEq, Repr

/-! ## The parser's central transform (`elements_to_properties`) -/
/-- Fixed whitelist of primitive type codes
(`StructureDefinitionParser::is_primitive`). -/
def is_primitive (type_code : String) : Bool :=
  type_code == "base64Binary" || type_code == "boolean" ||
  type_code == "canonical" || type_code == "code" || type_code == "date" ||
  type_code == "dateTime" || type_code == "decimal" || type_code == "id" ||
  type_code == "instant" || type_code == "integer" ||
  type_code == "integer64" || type_code == "markdown" || type_code == "oid" ||
  type_code == "positiveInt" || type_code == "string" ||
  type_code == "time" || type_code == "unsignedInt" || type_code == "uri" ||
  type_code == "url" || type_code == "uuid" || type_code == "xhtml"

/-- Derives the leaf field name from an element path: strip the
`"{type_name}."` prefix when present (else keep the path) and truncate at
the first remaining `.`; mirrors the name computation in
`elements_to_properties`. -/
def leaf_name (type_name : String) (path : String) : String :=
  let pfx := type_name.data ++ ['.']
  let stripped := if pfx.isPrefixOf path.data then path.data.drop pfx.length
    else path.data
  String.mk (first_dot_segment stripped)

/-- Selects the property-type variant from an element's declared types,
in the priority order of the source: no types, one type (Reference with
profiles / primitive / complex), several types. -/
def determine_property_type (types : List ElementType) : PropertyType :=
  match types with
  | [] => .backboneElement []
  | [elem_type] =>
    if elem_type.code == "Reference" && !elem_type.target_profiles.isEmpty then
      .reference (elem_type.target_profiles.filterMap last_slash_segment)
    else if is_primitive elem_type.code then
      .primitive elem_type.code
    else
      .complex elem_type.code
  | ts => .choice (ts.map (·.code))

/-- Builds the `Property` pushed by one iteration of the
`elements_to_properties` loop (choice detection, property-type selection,
cardinality conversion, and the defaulted fields). -/
def make_property (type_name : String) (elem : ElementDefinition) : Property :=
  let name := leaf_name type_name elem.path
  let is_choice := ends_with_x name
  let base_name := if is_choice then trim_end_matches_x name else name
  let choice_types := if is_choice then elem.types.map (·.code) else []
  let property_type := determine_property_type elem.types
  let cardinality : CardinalityRange :=
    { min := elem.min
      max := match elem.max with
        | .finite n => some n
        | .unbounded => none }
  Property.mk base_name elem.path property_type cardinality is_choice
    choice_types false false none [] (elem.short.getD "")
    (elem.definition.getD "") none []

/-- One iteration of the `elements_to_properties` loop: skip the root
element, skip elements whose leaf name matches an already produced
property name, and otherwise push the converted property. -/
def etp_step (type_name : String) (properties : List Property)
    (elem : ElementDefinition) : List Property :=
  if elem.path == type_name then properties
  else
    let name := leaf_name type_name elem.path
    if properties.any (fun p => p.name == name) then properties
    else properties ++ [make_property type_name elem]

/-- Converts element definitions to IR properties by folding `etp_step`
over the element list, starting from an empty property vector. -/
def elements_to_properties (elements : List ElementDefinition)
    (type_name : String) : List Property :=
  elements.foldl (etp_step type_name) []

/-! ## Remaining IR aggregate types (`core/ir.rs`) -/
/-- FHIR resource type in the IR. -/
structure ResourceType where
  name : String
  base : Option String
  properties : List Property
  search_parameters : List SearchParameter
  documentation : Documentation
  url : String
  is_abstract : Bool

/-- FHIR complex datatype in the IR. -/
structure DataType where
  name : String
  base : Option String
  properties : List Property
  documentation : Documentation
  url : String
  is_abstract : Bool

/-- FHIR primitive type in the IR. -/
structure PrimitiveType where
  name : String
  base : Option String
  pattern : Option String
  documentation : Documentation
  url : String
deriving DecidableEq, Repr

/-- Property constraint inside a profile. -/
structure PropertyConstraint where
  path : String
  cardinality : Option CardinalityRange
  type_constraints : List String
  binding : Option ValueSetBinding
  must_support : Bool
deriving DecidableEq, Repr

/-- FHIR profile in the IR. -/
structure ProfileType where
  name : String
  base : String
  property_constraints : List PropertyConstraint
  new_properties : List Property
  documentation : Documentation
  url : String

/-- FHIR version enumeration. -/
inductive FhirVersion where
  | r4
  | r4b
  | r5
  | r6
deriving DecidableEq, Repr

/-- Metadata about the type graph. The generation timestamp produced by
the system clock is modelled as an opaque constant string. -/
structure GraphMetadata where
  generated_at : String
  generator_version : String
  source_packages : List String
  custom : List (String × Json)

/-- Default graph metadata (`GraphMetadata::default`): clock and crate
version are modelled as fixed strings. -/
def GraphMetadata.default : GraphMetadata :=
  { generated_at := "generated-at", generator_version := "0.1.0",
    source_packages := [], custom := [] }

/-- The type graph: four name-keyed maps (modelled as association lists
with `IndexMap` insert semantics) plus version and metadata. -/
structure TypeGraph where
  resources : List (String × ResourceType)
  datatypes : List (String × DataType)
  primitives : List (String × PrimitiveType)
  profiles : List (String × ProfileType)
  fhir_version : FhirVersion
  metadata : GraphMetadata

/-- Insert into an `IndexMap` modelled as an association list: an
existing key keeps its position and gets the new value, a new key is
appended. -/
def imInsert {α : Type} (m : List (String × α)) (k : String) (v : α) :
    List (String × α) :=
  if m.any (fun p => p.1 == k) then
    m.map (fun p => if p.1 == k then (k, v) else p)
  else m ++ [(k, v)]

/-- Creates an empty type graph (`TypeGraph::new`). -/
def TypeGraph.new (fhir_version : FhirVersion) : TypeGraph :=
  { resources := [], datatypes := [], primitives := [], profiles := [],
    fhir_version := fhir_version, metadata := GraphMetadata.default }

/-- Adds a resource to the graph. -/
def TypeGraph.add_resource (g : TypeGraph) (name : String)
    (resource : ResourceType) : TypeGraph :=
  { g with resources := imInsert g.resources name resource }

/-- Adds a datatype to the graph. -/
def TypeGraph.add_datatype (g : TypeGraph) (name : String)
    (datatype : DataType) : TypeGraph :=
  { g with datatypes := imInsert g.datatypes name datatype }

/-- Adds a primitive to the graph. -/
def TypeGraph.add_primitive (g : TypeGraph) (name : String)
    (primitive : PrimitiveType) : TypeGraph :=
  { g with primitives := imInsert g.primitives name primitive }

/-- Adds a profile to the graph. -/
def TypeGraph.add_profile (g : TypeGraph) (name : String)
    (profile : ProfileType) : TypeGraph :=
  { g with profiles := imInsert g.profiles name profile }

/-- Total number of types in the graph. -/
def TypeGraph.total_types (g : TypeGraph) : Nat :=
  g.resources.length + g.datatypes.length + g.primitives.length +
    g.profiles.length

/-! ## The parser (`core/parser.rs`): `parse` and converters -/
/-- Error type (`core/error.rs`), restricted to the variants the embedded
code produces. -/
inductive Err where
  | parser (msg : String)
  | canonicalManager (msg : String)
  | other (msg : String)
deriving DecidableEq, Repr

/-- Parser state: the cache of parsed structures, a `HashMap` modelled as
an association list with insert-replace semantics. -/
structure StructureDefinitionParser where
  cache : List (String × ParsedStructure)
deriving DecidableEq, Repr

/-- `HashMap::insert` on the association-list model: replace the value
under an existing key, otherwise add the entry. -/
def cache_insert (cache : List (String × ParsedStructure)) (k : String)
    (v : ParsedStructure) : List (String × ParsedStructure) :=
  if cache.any (fun p => p.1 == k) then
    cache.map (fun p => if p.1 == k then (k, v) else p)
  else cache ++ [(k, v)]

/-- Rust `str::parse::<u32>()`: an optional leading `+`, one or more
ASCII digits, value within `u32` bounds. -/
def parse_u32 (s : String) : Option Nat :=
  let ds := match s.data with
    | '+' :: rest => rest
    | l => l
  if ds ≠ [] ∧ ds.all (fun c => c.isDigit) then
    let v := ds.foldl (fun acc c => acc * 10 + (c.toNat - '0'.toNat)) 0
    if v < 2 ^ 32 then some v else none
  else none

/-- Parses element type information (`parse_element_type`): the code is
required; `targetProfile` is read only for `Reference`, flattened from a
single string or an array, anything else giving the empty default. -/
def parse_element_type (type_obj : Json) : Except Err ElementType :=
  match (type_obj.get "code").bind Json.as_str with
  | none => .error (.parser "Type missing code")
  | some code =>
    let target_profiles :=
      if code == "Reference" then
        match type_obj.get "targetProfile" with
        | some (.str s) => [s]
        | some (.arr arr) => arr.filterMap Json.as_str
        | _ => []
      else []
    .ok ⟨code, target_profiles⟩

/-- Parses a value set binding (`parse_binding`): strength required. -/
def parse_binding (binding : Json) : Except Err Binding :=
  match (binding.get "strength").bind Json.as_str with
  | none => .error (.parser "Binding missing strength")
  | some strength =>
    .ok ⟨strength, (binding.get "valueSet").bind Json.as_str,
      (binding.get "description").bind Json.as_str⟩

/-- Parses a constraint (`parse_constraint`): key and human required,
severity defaulting to `error`. -/
def parse_constraint (constraint : Json) : Except Err Constraint :=
  match (constraint.get "key").bind Json.as_str with
  | none => .error (.parser "Constraint missing key")
  | some key =>
    let severity := ((constraint.get "severity").bind Json.as_str).getD "error"
    match (constraint.get "human").bind Json.as_str with
    | none => .error (.parser "Constraint missing human description")
    | some human =>
      .ok ⟨key, severity, human,
        (constraint.get "expression").bind Json.as_str,
        (constraint.get "xpath").bind Json.as_str⟩

/-- Parses a single element definition (`parse_element`): path required;
`min` defaults to 0 and is cast `as u32`; `max` parses `*` as unbounded,
a numeric string as finite and anything else as finite 1; per-item type
and constraint failures are swallowed by `filter_map(.. .ok())`. -/
def parse_element (elem : Json) : Except Err ElementDefinition :=
  match (elem.get "path").bind Json.as_str with
  | none => .error (.parser "Element missing path")
  | some path =>
    let short := (elem.get "short").bind Json.as_str
    let definition := (elem.get "definition").bind Json.as_str
    let min := (((elem.get "min").bind Json.as_u64).getD 0) % 2 ^ 32
    let max := (((elem.get "max").bind Json.as_str).map (fun s =>
        if s == "*" then Cardinality.unbounded
        else match parse_u32 s with
          | some n => Cardinality.finite n
          | none => Cardinality.finite 1)).getD (Cardinality.finite 1)
    let types := match (elem.get "type").bind Json.as_array with
      | some type_array =>
        type_array.filterMap (fun t => (parse_element_type t).toOption)
      | none => []
    let binding := (elem.get "binding").bind
      (fun b => (parse_binding b).toOption)
    let constraints := match (elem.get "constraint").bind Json.as_array with
      | some arr => arr.filterMap (fun c => (parse_constraint c).toOption)
      | none => []
    .ok ⟨path, short, definition, min, max, types, binding, constraints⟩

/-- Parses the element list from a snapshot or differential container
(`parse_element_definitions`): the `element` array is required and the
first per-element error propagates. -/
def parse_element_definitions (container : Json) :
    Except Err (List ElementDefinition) :=
  match (container.get "element").bind Json.as_array with
  | none => .error (.parser "Missing element array")
  | some elements => elements.mapM parse_element

/-- Maps the `kind` string to a structure kind, `none` for anything
outside the four recognized values. -/
def structure_kind_of_string (kind : String) : Option StructureKind :=
  match kind with
  | "resource" => some .resource
  | "complex-type" => some .complexType
  | "primitive-type" => some .primitiveType
  | "logical" => some .logicalModel
  | _ => none

/-- The parser entry point (`StructureDefinitionParser::parse`): the
validations in source order, element extraction preferring the snapshot,
and the cache insert on success. The mutable `&mut self` is threaded as
the returned parser state. -/
def StructureDefinitionParser.parse (p : StructureDefinitionParser)
    (json : Json) : Except Err ParsedStructure × StructureDefinitionParser :=
  match (json.get "resourceType").bind Json.as_str with
  | none => (.error (.parser "Missing resourceType"), p)
  | some resource_type =>
    if resource_type ≠ "StructureDefinition" then
      (.error (.parser ("Expected StructureDefinition, got " ++
        resource_type)), p)
    else
      match (json.get "url").bind Json.as_str with
      | none => (.error (.parser "Missing url"), p)
      | some url =>
        match (json.get "name").bind Json.as_str with
        | none => (.error (.parser "Missing name"), p)
        | some name =>
          match (json.get "kind").bind Json.as_str with
          | none => (.error (.parser "Missing kind"), p)
          | some kind =>
            match structure_kind_of_string kind with
            | none => (.error (.parser ("Unknown kind: " ++ kind)), p)
            | some structure_kind =>
              let base_definition := (json.get "baseDefinition").bind
                Json.as_str
              let is_abstract :=
                ((json.get "abstract").bind Json.as_bool).getD false
              let elems_diff : Except Err (List ElementDefinition × Bool) :=
                match json.get "snapshot" with
                | some snap =>
                  (parse_element_definitions snap).map (fun es => (es, false))
                | none =>
                  match json.get "differential" with
                  | some diff =>
                    (parse_element_definitions diff).map (fun es => (es, true))
                  | none =>
                    .error (.parser "Missing both snapshot and differential")
              match elems_diff with
              | .error e => (.error e, p)
              | .ok (elements, is_differential) =>
                let parsed : ParsedStructure :=
                  ⟨url, name, structure_kind, base_definition, is_abstract,
                    elements, is_differential⟩
                (.ok parsed, ⟨cache_insert p.cache parsed.url parsed⟩)

/-- Converts a parsed structure to a resource type (`to_resource_type`):
the kind must be `resource`; in the source `elements_to_properties`
returns `Result` but never errors, so the `?` cannot fail. -/
def to_resource_type (parsed : ParsedStructure) : Except Err ResourceType :=
  if parsed.kind ≠ StructureKind.resource then
    .error (.parser (parsed.name ++ " is not a resource"))
  else
    .ok { name := parsed.name
          base := parsed.base_definition
          properties := elements_to_properties parsed.elements parsed.name
          search_parameters := []
          documentation :=
            { short := "FHIR " ++ parsed.name ++ " Resource"
              definition := ""
              comments := none
              requirements := none
              usage_notes := []
              url := some parsed.url }
          url := parsed.url
          is_abstract := parsed.is_abstract }

/-- Success condition of `parse`, written from the claim's validation
list as amended: metadata fields present and valid, and the chosen
element container (snapshot preferred) holding a parseable element
array. -/
def parse_success_condition (j : Json) : Prop :=
  j.get_str "resourceType" = some "StructureDefinition" ∧
  (j.get_str "url").isSome = true ∧
  (j.get_str "name").isSome = true ∧
  (∃ k, j.get_str "kind" = some k ∧
    (structure_kind_of_string k).isSome = true) ∧
  (match j.get "snapshot" with
   | some snap => (parse_element_definitions snap).isOk = true
   | none => ∃ diff, j.get "differential" = some diff ∧
       (parse_element_definitions diff).isOk = true)

/-- Converts a parsed structure to a datatype (`to_datatype`): the kind
must be `complex-type`. -/
def to_datatype (parsed : ParsedStructure) : Except Err DataType :=
  if parsed.kind ≠ StructureKind.complexType then
    .error (.parser (parsed.name ++ " is not a complex type"))
  else
    .ok { name := parsed.name
          base := parsed.base_definition
          properties := elements_to_properties parsed.elements parsed.name
          documentation :=
            { short := "FHIR " ++ parsed.name ++ " DataType"
              definition := ""
              comments := none
              requirements := none
              usage_notes := []
              url := some parsed.url }
          url := parsed.url
          is_abstract := parsed.is_abstract }

/-- Recursion over the element list carrying the names already emitted
(which the fold reads through `properties.any`). -/
def etp_rec (tn : String) (seen : List String) :
    List ElementDefinition → List Property
  | [] => []
  | e :: rest =>
    if e.path = tn then etp_rec tn seen rest
    else if leaf_name tn e.path ∈ seen then etp_rec tn seen rest
    else make_property tn e :: etp_rec tn ((make_property tn e).name :: seen) rest

/-- Keeps the first occurrence of every string and drops the later
duplicates, preserving order. -/
def firstDedup : List String → List String
  | [] => []
  | a :: l => a :: firstDedup (l.filter (fun x => !(x == a)))
termination_by l => l.length
decreasing_by
  simp only [List.length_cons]
  exact Nat.lt_succ_of_le (List.length_filter_le _ l)

/-- Concrete input refuting C4 as stated: all four listed validations
pass (resourceType, url, name, kind present and valid, snapshot present)
yet `parse` fails, because the snapshot container has no `element`
array. -/
def c4_json : Json := .obj [
  ("resourceType", .str "StructureDefinition"),
  ("url", .str "u"),
  ("name", .str "n"),
  ("kind", .str "resource"),
  ("snapshot", .obj [])]

/-- Valid document carrying both a snapshot and a differential, used to
witness that the snapshot wins. -/
def c4_both_json : Json := .obj [
  ("resourceType", .str "StructureDefinition"),
  ("url", .str "http://example.com/T"),
  ("name", .str "T"),
  ("kind", .str "resource"),
  ("snapshot", .obj [("element", .arr [.obj [("path", .str "T")]])]),
  ("differential", .obj [("element", .arr [.obj [("path", .str "T")],
    .obj [("path", .str "T.x")]])])]

/-- Document whose single non-root element declares `min = 2` and
`max = "1"`: the pipeline copies the values verbatim, violating the
claimed invariant. -/
def c5_json : Json := .obj [
  ("resourceType", .str "StructureDefinition"),
  ("url", .str "http://example.com/Bad"),
  ("name", .str "Bad"),
  ("kind", .str "resource"),
  ("snapshot", .obj [("element", .arr [
    .obj [("path", .str "Bad")],
    .obj [("path", .str "Bad.field"), ("min", .num 2), ("max", .str "1"),
      ("type", .arr [.obj [("code", .str "string")]])]])])]

/-! ## The resolver (`core/resolver.rs`) -/
/-- Resolver state: the resolved-document cache and the primitive-check
cache (two `HashMap`s modelled as association lists). The external
canonical-manager client is modelled as a function argument. -/
structure SchemaResolver where
  cache : List (String × Json)
  primitives : List (String × Bool)

/-- `resolve_type`: a cache hit returns immediately without consulting
the client; on a miss the client is called, a success is cached and
returned, and a client failure is swallowed into `Ok(None)`. -/
def resolve_type (client : String → Except String Json)
    (st : SchemaResolver) (canonical_url : String) :
    Except Err (Option Json) × SchemaResolver :=
  match st.cache.lookup canonical_url with
  | some cached => (.ok (some cached), st)
  | none =>
    match client canonical_url with
    | .ok content =>
      (.ok (some content),
        { st with cache := imInsert st.cache canonical_url content })
    | .error _ => (.ok none, st)

/-- Concrete client for the C8 witness: resolves exactly one URL. -/
def c8_client : String → Except String Json :=
  fun u => if u == "http://x/ok" then .ok (.str "doc") else .error "not found"

/-- Concrete resolver state for the C8 witness. -/
def c8_state : SchemaResolver := ⟨[("http://x/cached", .str "c")], []⟩

/-! ## The graph builder (`core/graph_builder.rs`)

The builder's external collaborators are modelled as inputs: the list of
structure-definition documents the resolver enumerates, the list of
resolved SearchParameter resource contents, and the installed package
list. The shared parser (behind a mutex in the source, accessed
sequentially) is threaded as explicit state. -/
/-- One step of `categorize_structures`: route a document into the
resource/datatype/primitive bucket by its `kind`, defaulting the name to
`unknown`; anything else is skipped with a warning. -/
def cat_step
    (acc : List (String × Json) × List (String × Json) × List (String × Json))
    (sd : Json) :
    List (String × Json) × List (String × Json) × List (String × Json) :=
  let name := ((sd.get "name").bind Json.as_str).getD "unknown"
  match (sd.get "kind").bind Json.as_str with
  | some "resource" => (imInsert acc.1 name sd, acc.2.1, acc.2.2)
  | some "complex-type" => (acc.1, imInsert acc.2.1 name sd, acc.2.2)
  | some "primitive-type" => (acc.1, acc.2.1, imInsert acc.2.2 name sd)
  | _ => acc

/-- Categorizes structure definitions by kind into the
(resources, datatypes, primitives) buckets; in the source the buckets
are `HashMap`s, modelled as association lists with insert-replace. -/
def categorize_structures (structure_defs : List Json) :
    List (String × Json) × List (String × Json) × List (String × Json) :=
  structure_defs.foldl cat_step ([], [], [])

/-- Conversion of a parsed structure to a primitive type
(`process_primitive` after its parse): kind check, then the IR value
with the pattern extraction stubbed to `None` as in the source. -/
def primitive_of_parsed (parsed : ParsedStructure) :
    Except Err PrimitiveType :=
  if parsed.kind ≠ StructureKind.primitiveType then
    .error (.parser (parsed.name ++ " is not a primitive type"))
  else
    .ok { name := parsed.name
          base := parsed.base_definition
          pattern := none
          documentation :=
            { short := "FHIR primitive type " ++ parsed.name
              definition := ""
              comments := none
              requirements := none
              usage_notes := []
              url := some parsed.url }
          url := parsed.url }

/-- `process_primitive`: parse, then convert; the parser cache threads
through. -/
def process_primitive (p : StructureDefinitionParser) (sd_json : Json) :
    Except Err PrimitiveType × StructureDefinitionParser :=
  match StructureDefinitionParser.parse p sd_json with
  | (.error e, p') => (.error e, p')
  | (.ok parsed, p') => (primitive_of_parsed parsed, p')

/-- `process_datatype`: parse, then `to_datatype`. -/
def process_datatype (p : StructureDefinitionParser) (sd_json : Json) :
    Except Err DataType × StructureDefinitionParser :=
  match StructureDefinitionParser.parse p sd_json with
  | (.error e, p') => (.error e, p')
  | (.ok parsed, p') => (to_datatype parsed, p')

/-- `process_resource`: parse, then `to_resource_type`. -/
def process_resource (p : StructureDefinitionParser) (sd_json : Json) :
    Except Err ResourceType × StructureDefinitionParser :=
  match StructureDefinitionParser.parse p sd_json with
  | (.error e, p') => (.error e, p')
  | (.ok parsed, p') => (to_resource_type parsed, p')

/-- Maps a search-parameter type string to the enumeration; unknown
types give `none` (a hard error for that parameter). -/
def search_param_type_of_string (s : String) : Option SearchParamType :=
  match s with
  | "number" => some .number
  | "date" => some .date
  | "string" => some .string
  | "token" => some .token
  | "reference" => some .reference
  | "composite" => some .composite
  | "quantity" => some .quantity
  | "uri" => some .uri
  | "special" => some .special
  | _ => none

/-- `parse_search_parameter`: code and type required, unknown type a hard
error; description defaults to empty; targets read only for reference
parameters. -/
def parse_search_parameter (content : Json) : Except Err SearchParameter :=
  match (content.get "code").bind Json.as_str with
  | none => .error (.parser "SearchParameter missing code")
  | some code =>
    match (content.get "type").bind Json.as_str with
    | none => .error (.parser "SearchParameter missing type")
    | some t =>
      match search_param_type_of_string t with
      | none => .error (.parser ("Unknown search parameter type: " ++ t))
      | some param_type =>
        let description :=
          ((content.get "description").bind Json.as_str).getD ""
        let expression := (content.get "expression").bind Json.as_str
        let target_types :=
          if param_type = SearchParamType.reference then
            (((content.get "target").bind Json.as_array).map
              (fun arr => arr.filterMap Json.as_str)).getD []
          else []
        .ok ⟨code, param_type, description, expression, target_types⟩

/-- `entry(base).or_default().push(param)` on the grouping multimap. -/
def mm_push (m : List (String × List SearchParameter)) (k : String)
    (v : SearchParameter) : List (String × List SearchParameter) :=
  if m.any (fun p => p.1 == k) then
    m.map (fun p => if p.1 == k then (p.1, p.2 ++ [v]) else p)
  else m ++ [(k, [v])]

/-- Groups the parsed search parameters by each declared base resource
type, skipping parameters that fail to parse. -/
def params_by_resource (search_params : List Json) :
    List (String × List SearchParameter) :=
  search_params.foldl (fun m content =>
    let bases := (((content.get "base").bind Json.as_array).map
      (fun arr => arr.filterMap Json.as_str)).getD []
    match parse_search_parameter content with
    | .ok param => bases.foldl (fun m base => mm_push m base param) m
    | .error _ => m) []

/-- `add_search_parameters`: attach the grouped parameters to the
matching resources; resources without a group keep their (empty) list. -/
def add_search_parameters (graph : TypeGraph) (search_params : List Json) :
    TypeGraph :=
  let groups := params_by_resource search_params
  { graph with resources := graph.resources.map (fun nr =>
      match groups.lookup nr.1 with
      | some params => (nr.1, { nr.2 with search_parameters := params })
      | none => nr) }

/-- One step of the primitive-processing loop: a conversion failure
drops the item, a success inserts it. -/
def prim_step (acc : TypeGraph × StructureDefinitionParser)
    (nv : String × Json) : TypeGraph × StructureDefinitionParser :=
  match process_primitive acc.2 nv.2 with
  | (.ok primitive, p') => (acc.1.add_primitive nv.1 primitive, p')
  | (.error _, p') => (acc.1, p')

/-- One step of the datatype-processing loop. -/
def dt_step (acc : TypeGraph × StructureDefinitionParser)
    (nv : String × Json) : TypeGraph × StructureDefinitionParser :=
  match process_datatype acc.2 nv.2 with
  | (.ok datatype, p') => (acc.1.add_datatype nv.1 datatype, p')
  | (.error _, p') => (acc.1, p')

/-- One step of the resource-processing loop. -/
def res_step (acc : TypeGraph × StructureDefinitionParser)
    (nv : String × Json) : TypeGraph × StructureDefinitionParser :=
  match process_resource acc.2 nv.2 with
  | (.ok resource, p') => (acc.1.add_resource nv.1 resource, p')
  | (.error _, p') => (acc.1, p')

/-- `build`: categorize, process primitives, then datatypes, then
resources (each item's conversion failure caught and dropped), attach
search parameters, record the installed packages in the metadata. -/
def build (fhir_version : FhirVersion) (p0 : StructureDefinitionParser)
    (structure_defs : List Json) (search_params : List Json)
    (packages : List String) :
    Except Err TypeGraph × StructureDefinitionParser :=
  let cat := categorize_structures structure_defs
  let stage1 := cat.2.2.foldl prim_step (TypeGraph.new fhir_version, p0)
  let stage2 := cat.2.1.foldl dt_step stage1
  let stage3 := cat.1.foldl res_step stage2
  let graph := add_search_parameters stage3.1 search_params
  (.ok { graph with metadata :=
      { graph.metadata with source_packages := packages } }, stage3.2)

/-- Two minimal documents whose kinds place them in different buckets
(`resource` named X and `primitive-type` named Y). -/
def c6w_docs : List Json :=
  [.obj [("name", .str "X"), ("kind", .str "resource")],
   .obj [("name", .str "Y"), ("kind", .str "primitive-type")]]

/-- A parseable primitive-type document named Pgood. -/
def c7w_good : Json :=
  .obj [("resourceType", .str "StructureDefinition"),
        ("url", .str "ug"), ("name", .str "Pgood"),
        ("kind", .str "primitive-type"),
        ("snapshot", .obj [("element", .arr
          [.obj [("path", .str "Pgood")]])])]

/-- A primitive-type document named Pbad that fails to parse (missing
resourceType). -/
def c7w_bad : Json :=
  .obj [("name", .str "Pbad"), ("kind", .str "primitive-type")]

/-- The primitive type `process_primitive` produces from `c7w_good`. -/
def c7w_prim : PrimitiveType :=
  { name := "Pgood"
    base := none
    pattern := none
    documentation :=
      { short := "FHIR primitive type Pgood"
        definition := ""
        comments := none
        requirements := none
        usage_notes := []
        url := some "ug" }
    url := "ug" }

/-! ## Serialization layer (`serde` derive on `core/ir.rs`) -/
/-- Value an `Option` field serializes to: `None` → `null` (serde default,
no skip attributes in the source). -/
def json_of_opt {α : Type} (f : α → Json) : Option α → Json
  | none => Json.null
  | some a => f a

/-- Deserializing an `Option` field value: `null` → `None`, anything else
through the inner deserializer. -/
def json_opt {α : Type} (f : Json → Option α) : Json → Option (Option α)
  | .null => some none
  | v => (f v).map some

/-- Deserializing an `Option`-typed struct field: serde treats a missing
field of `Option` type as `None`. -/
def json_get_opt {α : Type} (f : Json → Option α) (j : Json) (k : String) :
    Option (Option α) :=
  match j.get k with
  | none => some none
  | some v => json_opt f v

/-- Elementwise sequence deserialization, failing on the first bad item. -/
def option_list {α : Type} (f : Json → Option α) : List Json → Option (List α)
  | [] => some []
  | j :: js =>
    match f j, option_list f js with
    | some a, some rest => some (a :: rest)
    | _, _ => none

/-- Deserializing a `Vec` field: an array, elementwise. -/
def json_list {α : Type} (f : Json → Option α) : Json → Option (List α)
  | .arr items => option_list f items
  | _ => none

/-- Elementwise map-entry deserialization (an `IndexMap<String, T>`
deserializes from a JSON object in document order). -/
def option_pairs {α : Type} (f : Json → Option α) :
    List (String × Json) → Option (List (String × α))
  | [] => some []
  | (k, v) :: rest =>
    match f v, option_pairs f rest with
    | some a, some r => some ((k, a) :: r)
    | _, _ => none

/-- Mirrors serde_json object extraction for map-typed fields. -/
def Json.as_obj : Json → Option (List (String × Json))
  | .obj entries => some entries
  | _ => none

/-- Deserializing a `u32`: a non-negative integer below `2^32`. -/
def json_to_u32 (j : Json) : Option Nat :=
  match j with
  | .num n => if 0 ≤ n ∧ n.toNat < 2 ^ 32 then some n.toNat else none
  | _ => none

/-- `u32` fields are within range. -/
def CardinalityRange.wfb (c : CardinalityRange) : Bool :=
  decide (c.min < 2 ^ 32) &&
    (match c.max with
     | none => true
     | some m => decide (m < 2 ^ 32))

/-- serde serialization of `CardinalityRange` (fields in declaration
order). -/
def CardinalityRange.to_json (c : CardinalityRange) : Json :=
  .obj [("min", .num (Int.ofNat c.min)),
        ("max", json_of_opt (fun m => Json.num (Int.ofNat m)) c.max)]

/-- serde deserialization of `CardinalityRange`. -/
def CardinalityRange.from_json (j : Json) : Option CardinalityRange := do
  let mn ← (Json.get j "min").bind json_to_u32
  let mx ← json_get_opt json_to_u32 j "max"
  some ⟨mn, mx⟩

/-- serde serialization of `FhirVersion` (unit variants as their Rust
names). -/
def FhirVersion.to_json : FhirVersion → Json
  | .r4 => .str "R4"
  | .r4b => .str "R4B"
  | .r5 => .str "R5"
  | .r6 => .str "R6"

/-- serde deserialization of `FhirVersion`. -/
def FhirVersion.from_json : Json → Option FhirVersion
  | .str "R4" => some .r4
  | .str "R4B" => some .r4b
  | .str "R5" => some .r5
  | .str "R6" => some .r6
  | _ => none

/-- serde serialization of `BindingStrength`. -/
def BindingStrength.to_json : BindingStrength → Json
  | .required => .str "Required"
  | .extensible => .str "Extensible"
  | .preferred => .str "Preferred"
  | .example => .str "Example"

/-- serde deserialization of `BindingStrength`. -/
def BindingStrength.from_json : Json → Option BindingStrength
  | .str "Required" => some .required
  | .str "Extensible" => some .extensible
  | .str "Preferred" => some .preferred
  | .str "Example" => some .example
  | _ => none

/-- serde serialization of `ConstraintSeverity`. -/
def ConstraintSeverity.to_json : ConstraintSeverity → Json
  | .error => .str "Error"
  | .warning => .str "Warning"

/-- serde deserialization of `ConstraintSeverity`. -/
def ConstraintSeverity.from_json : Json → Option ConstraintSeverity
  | .str "Error" => some .error
  | .str "Warning" => some .warning
  | _ => none

/-- serde serialization of `SearchParamType`. -/
def SearchParamType.to_json : SearchParamType → Json
  | .number => .str "Number"
  | .date => .str "Date"
  | .string => .str "String"
  | .token => .str "Token"
  | .reference => .str "Reference"
  | .composite => .str "Composite"
  | .quantity => .str "Quantity"
  | .uri => .str "Uri"
  | .special => .str "Special"

/-- serde deserialization of `SearchParamType`. -/
def SearchParamType.from_json : Json → Option SearchParamType
  | .str "Number" => some .number
  | .str "Date" => some .date
  | .str "String" => some .string
  | .str "Token" => some .token
  | .str "Reference" => some .reference
  | .str "Composite" => some .composite
  | .str "Quantity" => some .quantity
  | .str "Uri" => some .uri
  | .str "Special" => some .special
  | _ => none

/-- serde serialization of `ValueSetBinding`. -/
def ValueSetBinding.to_json (b : ValueSetBinding) : Json :=
  .obj [("strength", b.strength.to_json),
        ("value_set", .str b.value_set),
        ("description", json_of_opt Json.str b.description)]

/-- serde deserialization of `ValueSetBinding`. -/
def ValueSetBinding.from_json (j : Json) : Option ValueSetBinding := do
  let s ← (Json.get j "strength").bind BindingStrength.from_json
  let vs ← Json.get_str j "value_set"
  let d ← json_get_opt Json.as_str j "description"
  some ⟨s, vs, d⟩

/-- serde serialization of `InvariantRule`. -/
def InvariantRule.to_json (r : InvariantRule) : Json :=
  .obj [("key", .str r.key),
        ("severity", r.severity.to_json),
        ("human", .str r.human),
        ("expression", json_of_opt Json.str r.expression),
        ("xpath", json_of_opt Json.str r.xpath)]

/-- serde deserialization of `InvariantRule`. -/
def InvariantRule.from_json (j : Json) : Option InvariantRule := do
  let k ← Json.get_str j "key"
  let sev ← (Json.get j "severity").bind ConstraintSeverity.from_json
  let h ← Json.get_str j "human"
  let e ← json_get_opt Json.as_str j "expression"
  let x ← json_get_opt Json.as_str j "xpath"
  some ⟨k, sev, h, e, x⟩

/-- serde serialization of `Example` (`value` is a raw
`serde_json::Value`, serialized as itself). -/
def Example.to_json (e : Example) : Json :=
  .obj [("label", .str e.label), ("value", e.value)]

/-- serde deserialization of `Example`. -/
def Example.from_json (j : Json) : Option Example := do
  let l ← Json.get_str j "label"
  let v ← Json.get j "value"
  some ⟨l, v⟩

/-- serde serialization of `Documentation`. -/
def Documentation.to_json (d : Documentation) : Json :=
  .obj [("short", .str d.short),
        ("definition", .str d.definition),
        ("comments", json_of_opt Json.str d.comments),
        ("requirements", json_of_opt Json.str d.requirements),
        ("usage_notes", .arr (d.usage_notes.map Json.str)),
        ("url", json_of_opt Json.str d.url)]

/-- serde deserialization of `Documentation`. -/
def Documentation.from_json (j : Json) : Option Documentation := do
  let s ← Json.get_str j "short"
  let df ← Json.get_str j "definition"
  let c ← json_get_opt Json.as_str j "comments"
  let r ← json_get_opt Json.as_str j "requirements"
  let un ← (Json.get j "usage_notes").bind (json_list Json.as_str)
  let u ← json_get_opt Json.as_str j "url"
  some ⟨s, df, c, r, un, u⟩

/-- serde serialization of `SearchParameter`. -/
def SearchParameter.to_json (sp : SearchParameter) : Json :=
  .obj [("code", .str sp.code),
        ("param_type", sp.param_type.to_json),
        ("description", .str sp.description),
        ("expression", json_of_opt Json.str sp.expression),
        ("target_types", .arr (sp.target_types.map Json.str))]

/-- serde deserialization of `SearchParameter`. -/
def SearchParameter.from_json (j : Json) : Option SearchParameter := do
  let c ← Json.get_str j "code"
  let pt ← (Json.get j "param_type").bind SearchParamType.from_json
  let d ← Json.get_str j "description"
  let e ← json_get_opt Json.as_str j "expression"
  let tts ← (Json.get j "target_types").bind (json_list Json.as_str)
  some ⟨c, pt, d, e, tts⟩

/-- A value found by association-list lookup is smaller than the list. -/
def lookup_sizeOf_json {entries : List (String × Json)} {k : String}
    {v : Json} (h : entries.lookup k = some v) :
    sizeOf v < 1 + sizeOf entries := by
  induction entries with
  | nil => simp [List.lookup] at h
  | cons hd tl ih =>
    rcases hd with ⟨key, val⟩
    cases hk : (k == key) with
    | true =>
      simp only [List.lookup, hk] at h
      injection h with h
      subst h
      simp
      omega
    | false =>
      simp only [List.lookup, hk] at h
      have := ih h
      simp
      omega

/-- A field value is smaller than the object it was read from. -/
def json_get_sizeOf {j v : Json} {k : String}
    (h : Json.get j k = some v) : sizeOf v < sizeOf j := by
  cases j with
  | obj entries =>
    simp only [Json.get] at h
    have hlt := lookup_sizeOf_json h
    have hs : sizeOf (Json.obj entries) = 1 + sizeOf entries := by simp
    omega
  | null => simp [Json.get] at h
  | bool b => simp [Json.get] at h
  | num n => simp [Json.get] at h
  | str s => simp [Json.get] at h
  | arr items => simp [Json.get] at h

/-- The item list of an array value is smaller than the value. -/
def json_as_array_sizeOf {v : Json} {items : List Json}
    (h : v.as_array = some items) : sizeOf items < sizeOf v := by
  cases v with
  | arr l =>
    simp only [Json.as_array] at h
    injection h with h
    subst h
    simp
  | null => simp [Json.as_array] at h
  | bool b => simp [Json.as_array] at h
  | num n => simp [Json.as_array] at h
  | str s => simp [Json.as_array] at h
  | obj entries => simp [Json.as_array] at h

mutual

/-- All `u32` fields reachable from a property type are in range. -/
def PropertyType.wfb : PropertyType → Bool
  | .backboneElement props => Property.wfb_list props
  | _ => true

/-- All `u32` fields reachable from a property are in range. -/
def Property.wfb : Property → Bool
  | .mk _ _ pt c _ _ _ _ _ _ _ _ _ _ =>
    CardinalityRange.wfb c && PropertyType.wfb pt

/-- All `u32` fields reachable from a property list are in range. -/
def Property.wfb_list : List Property → Bool
  | [] => true
  | p :: ps => Property.wfb p && Property.wfb_list ps

end

mutual

/-- serde serialization of `PropertyType`: internally tagged with
`kind`, tag first, variant names as in Rust. -/
def PropertyType.to_json : PropertyType → Json
  | .primitive tn =>
    .obj [("kind", .str "Primitive"), ("type_name", .str tn)]
  | .complex tn =>
    .obj [("kind", .str "Complex"), ("type_name", .str tn)]
  | .reference tts =>
    .obj [("kind", .str "Reference"),
          ("target_types", .arr (tts.map Json.str))]
  | .backboneElement props =>
    .obj [("kind", .str "BackboneElement"),
          ("properties", .arr (Property.to_json_list props))]
  | .choice ts =>
    .obj [("kind", .str "Choice"), ("types", .arr (ts.map Json.str))]

/-- serde serialization of `Property` (fields in declaration order). -/
def Property.to_json : Property → Json
  | .mk name path pt card ich cts imod isum b0 cons0 sd defn comm exs =>
    .obj [("name", .str name),
          ("path", .str path),
          ("property_type", PropertyType.to_json pt),
          ("cardinality", CardinalityRange.to_json card),
          ("is_choice", .bool ich),
          ("choice_types", .arr (cts.map Json.str)),
          ("is_modifier", .bool imod),
          ("is_summary", .bool isum),
          ("binding", json_of_opt ValueSetBinding.to_json b0),
          ("constraints", .arr (cons0.map InvariantRule.to_json)),
          ("short_description", .str sd),
          ("definition", .str defn),
          ("comments", json_of_opt Json.str comm),
          ("examples", .arr (exs.map Example.to_json))]

/-- serde serialization of a property list. -/
def Property.to_json_list : List Property → List Json
  | [] => []
  | p :: ps => Property.to_json p :: Property.to_json_list ps

end

mutual

/-- serde deserialization of `PropertyType`: dispatch on the `kind`
tag. -/
def PropertyType.from_json (j : Json) : Option PropertyType :=
  match (Json.get j "kind").bind Json.as_str with
  | some "Primitive" =>
    ((Json.get j "type_name").bind Json.as_str).map .primitive
  | some "Complex" =>
    ((Json.get j "type_name").bind Json.as_str).map .complex
  | some "Reference" =>
    ((Json.get j "target_types").bind (json_list Json.as_str)).map .reference
  | some "BackboneElement" =>
    (match h1 : Json.get j "properties" with
     | some v =>
       match h2 : v.as_array with
       | some items => (Property.from_json_list items).map .backboneElement
       | none => none
     | none => none)
  | some "Choice" =>
    ((Json.get j "types").bind (json_list Json.as_str)).map .choice
  | _ => none
termination_by sizeOf j
decreasing_by
  exact Nat.lt_trans (json_as_array_sizeOf h2) (json_get_sizeOf h1)

/-- serde deserialization of `Property`. -/
def Property.from_json (j : Json) : Option Property :=
  match h : Json.get j "property_type" with
  | none => none
  | some jpt => do
    let name ← Json.get_str j "name"
    let path ← Json.get_str j "path"
    let pt ← PropertyType.from_json jpt
    let card ← (Json.get j "cardinality").bind CardinalityRange.from_json
    let ich ← (Json.get j "is_choice").bind Json.as_bool
    let cts ← (Json.get j "choice_types").bind (json_list Json.as_str)
    let imod ← (Json.get j "is_modifier").bind Json.as_bool
    let isum ← (Json.get j "is_summary").bind Json.as_bool
    let b0 ← json_get_opt ValueSetBinding.from_json j "binding"
    let cons0 ← (Json.get j "constraints").bind (json_list InvariantRule.from_json)
    let sd ← Json.get_str j "short_description"
    let defn ← Json.get_str j "definition"
    let comm ← json_get_opt Json.as_str j "comments"
    let exs ← (Json.get j "examples").bind (json_list Example.from_json)
    some (.mk name path pt card ich cts imod isum b0 cons0 sd defn comm exs)
termination_by sizeOf j
decreasing_by
  exact json_get_sizeOf h

/-- serde deserialization of a property array, elementwise. -/
def Property.from_json_list : List Json → Option (List Property)
  | [] => some []
  | j :: js =>
    match Property.from_json j, Property.from_json_list js with
    | some p, some ps => some (p :: ps)
    | _, _ => none
termination_by l => sizeOf l
decreasing_by
  all_goals simp
  omega

end

/-- Deserializing a `Vec<Property>` field value. -/
def json_plist (j : Json) : Option (List Property) :=
  match j with
  | .arr items => Property.from_json_list items
  | _ => none

/-- All `u32` fields reachable from a resource type are in range. -/
def ResourceType.wfb (r : ResourceType) : Bool :=
  Property.wfb_list r.properties

/-- serde serialization of `ResourceType`. -/
def ResourceType.to_json (r : ResourceType) : Json :=
  .obj [("name", .str r.name),
        ("base", json_of_opt Json.str r.base),
        ("properties", .arr (Property.to_json_list r.properties)),
        ("search_parameters",
          .arr (r.search_parameters.map SearchParameter.to_json)),
        ("documentation", r.documentation.to_json),
        ("url", .str r.url),
        ("is_abstract", .bool r.is_abstract)]

/-- serde deserialization of `ResourceType`. -/
def ResourceType.from_json (j : Json) : Option ResourceType := do
  let n ← Json.get_str j "name"
  let b ← json_get_opt Json.as_str j "base"
  let props ← (Json.get j "properties").bind json_plist
  let sps ← (Json.get j "search_parameters").bind
    (json_list SearchParameter.from_json)
  let d ← (Json.get j "documentation").bind Documentation.from_json
  let u ← Json.get_str j "url"
  let ab ← (Json.get j "is_abstract").bind Json.as_bool
  some ⟨n, b, props, sps, d, u, ab⟩

/-- All `u32` fields reachable from a datatype are in range. -/
def DataType.wfb (d : DataType) : Bool :=
  Property.wfb_list d.properties

/-- serde serialization of `DataType`. -/
def DataType.to_json (d : DataType) : Json :=
  .obj [("name", .str d.name),
        ("base", json_of_opt Json.str d.base),
        ("properties", .arr (Property.to_json_list d.properties)),
        ("documentation", d.documentation.to_json),
        ("url", .str d.url),
        ("is_abstract", .bool d.is_abstract)]

/-- serde deserialization of `DataType`. -/
def DataType.from_json (j : Json) : Option DataType := do
  let n ← Json.get_str j "name"
  let b ← json_get_opt Json.as_str j "base"
  let props ← (Json.get j "properties").bind json_plist
  let d ← (Json.get j "documentation").bind Documentation.from_json
  let u ← Json.get_str j "url"
  let ab ← (Json.get j "is_abstract").bind Json.as_bool
  some ⟨n, b, props, d, u, ab⟩

/-- serde serialization of `PrimitiveType`. -/
def PrimitiveType.to_json (p : PrimitiveType) : Json :=
  .obj [("name", .str p.name),
        ("base", json_of_opt Json.str p.base),
        ("pattern", json_of_opt Json.str p.pattern),
        ("documentation", p.documentation.to_json),
        ("url", .str p.url)]

/-- serde deserialization of `PrimitiveType`. -/
def PrimitiveType.from_json (j : Json) : Option PrimitiveType := do
  let n ← Json.get_str j "name"
  let b ← json_get_opt Json.as_str j "base"
  let pat ← json_get_opt Json.as_str j "pattern"
  let d ← (Json.get j "documentation").bind Documentation.from_json
  let u ← Json.get_str j "url"
  some ⟨n, b, pat, d, u⟩

/-- All `u32` fields reachable from a property constraint are in
range. -/
def PropertyConstraint.wfb (pc : PropertyConstraint) : Bool :=
  match pc.cardinality with
  | none => true
  | some c => c.wfb

/-- serde serialization of `PropertyConstraint`. -/
def PropertyConstraint.to_json (pc : PropertyConstraint) : Json :=
  .obj [("path", .str pc.path),
        ("cardinality", json_of_opt CardinalityRange.to_json pc.cardinality),
        ("type_constraints", .arr (pc.type_constraints.map Json.str)),
        ("binding", json_of_opt ValueSetBinding.to_json pc.binding),
        ("must_support", .bool pc.must_support)]

/-- serde deserialization of `PropertyConstraint`. -/
def PropertyConstraint.from_json (j : Json) : Option PropertyConstraint := do
  let p ← Json.get_str j "path"
  let c ← json_get_opt CardinalityRange.from_json j "cardinality"
  let tc ← (Json.get j "type_constraints").bind (json_list Json.as_str)
  let b ← json_get_opt ValueSetBinding.from_json j "binding"
  let ms ← (Json.get j "must_support").bind Json.as_bool
  some ⟨p, c, tc, b, ms⟩

/-- All `u32` fields reachable from a profile are in range. -/
def ProfileType.wfb (p : ProfileType) : Bool :=
  p.property_constraints.all PropertyConstraint.wfb &&
    Property.wfb_list p.new_properties

/-- serde serialization of `ProfileType`. -/
def ProfileType.to_json (p : ProfileType) : Json :=
  .obj [("name", .str p.name),
        ("base", .str p.base),
        ("property_constraints",
          .arr (p.property_constraints.map PropertyConstraint.to_json)),
        ("new_properties", .arr (Property.to_json_list p.new_properties)),
        ("documentation", p.documentation.to_json),
        ("url", .str p.url)]

/-- serde deserialization of `ProfileType`. -/
def ProfileType.from_json (j : Json) : Option ProfileType := do
  let n ← Json.get_str j "name"
  let b ← Json.get_str j "base"
  let pcs ← (Json.get j "property_constraints").bind
    (json_list PropertyConstraint.from_json)
  let nps ← (Json.get j "new_properties").bind json_plist
  let d ← (Json.get j "documentation").bind Documentation.from_json
  let u ← Json.get_str j "url"
  some ⟨n, b, pcs, nps, d, u⟩

/-- serde serialization of `GraphMetadata` (the `custom` `HashMap` is
modelled in iteration order). -/
def GraphMetadata.to_json (m : GraphMetadata) : Json :=
  .obj [("generated_at", .str m.generated_at),
        ("generator_version", .str m.generator_version),
        ("source_packages", .arr (m.source_packages.map Json.str)),
        ("custom", .obj m.custom)]

/-- serde deserialization of `GraphMetadata`. -/
def GraphMetadata.from_json (j : Json) : Option GraphMetadata := do
  let ga ← Json.get_str j "generated_at"
  let gv ← Json.get_str j "generator_version"
  let sp ← (Json.get j "source_packages").bind (json_list Json.as_str)
  let c ← (Json.get j "custom").bind Json.as_obj
  some ⟨ga, gv, sp, c⟩

/-- All `u32` fields reachable from a graph are in range (true of every
graph the builder constructs, since the parser reduces them mod
`2^32`). -/
def TypeGraph.wfb (g : TypeGraph) : Bool :=
  g.resources.all (fun p => ResourceType.wfb p.2) &&
    g.datatypes.all (fun p => DataType.wfb p.2) &&
    g.profiles.all (fun p => ProfileType.wfb p.2)

/-- serde serialization of `TypeGraph`: the four `IndexMap`s serialize
as JSON objects in insertion order. -/
def TypeGraph.to_json (g : TypeGraph) : Json :=
  .obj [("resources",
          .obj (g.resources.map (fun p => (p.1, ResourceType.to_json p.2)))),
        ("datatypes",
          .obj (g.datatypes.map (fun p => (p.1, DataType.to_json p.2)))),
        ("primitives",
          .obj (g.primitives.map (fun p => (p.1, PrimitiveType.to_json p.2)))),
        ("profiles",
          .obj (g.profiles.map (fun p => (p.1, ProfileType.to_json p.2)))),
        ("fhir_version", g.fhir_version.to_json),
        ("metadata", g.metadata.to_json)]

/-- serde deserialization of `TypeGraph`: map entries are rebuilt in
document order. -/
def TypeGraph.from_json (j : Json) : Option TypeGraph := do
  let rs ← (Json.get j "resources").bind
    (fun v => v.as_obj.bind (option_pairs ResourceType.from_json))
  let ds ← (Json.get j "datatypes").bind
    (fun v => v.as_obj.bind (option_pairs DataType.from_json))
  let ps ← (Json.get j "primitives").bind
    (fun v => v.as_obj.bind (option_pairs PrimitiveType.from_json))
  let pf ← (Json.get j "profiles").bind
    (fun v => v.as_obj.bind (option_pairs ProfileType.from_json))
  let fv ← (Json.get j "fhir_version").bind FhirVersion.from_json
  let md ← (Json.get j "metadata").bind GraphMetadata.from_json
  some ⟨rs, ds, ps, pf, fv, md⟩

/-- A concrete property exercising the recursive serializer. -/
def c9w_prop : Property :=
  .mk "id" "Patient.id" (.primitive "string") ⟨0, some 1⟩ false [] false
    false none [] "Logical id" "" none []

/-- A concrete resource named Patient carrying `c9w_prop`. -/
def c9w_res : ResourceType :=
  { name := "Patient"
    base := some "DomainResource"
    properties := [c9w_prop]
    search_parameters := []
    documentation :=
      { short := "Patient resource"
        definition := ""
        comments := none
        requirements := none
        usage_notes := []
        url := none }
    url := "http://hl7.org/fhir/StructureDefinition/Patient"
    is_abstract := false }

/-- A concrete graph with one resource. -/
def c9w_graph : TypeGraph :=
  TypeGraph.add_resource (TypeGraph.new FhirVersion.r4) "Patient" c9w_res

/-! ## Lemmas about `splitOnChar` -/
theorem splitOnChar_ne_nil (c : Char) : ∀ l : List Char, splitOnChar c l ≠ []
  | [] => by simp [splitOnChar]
  | a :: rest => by
    cases h : splitOnChar c rest with
    | nil => exact absurd h (splitOnChar_ne_nil c rest)
    | cons hd tl =>
      simp only [splitOnChar, h]
      split <;> simp

theorem splitOnChar_length (c : Char) :
    ∀ l : List Char, (splitOnChar c l).length = l.count c + 1
  | [] => by simp [splitOnChar]
  | a :: rest => by
    have ih := splitOnChar_length c rest
    cases h : splitOnChar c rest with
    | nil => exact absurd h (splitOnChar_ne_nil c rest)
    | cons hd tl =>
      rw [h] at ih
      simp only [splitOnChar, h]
      by_cases hac : a = c
      · have hbeq : (a == c) = true := beq_iff_eq.mpr hac
        rw [if_pos hac, List.count_cons]
        simp [hbeq]
        simp only [List.length_cons] at ih
        omega
      · have hbeq : (a == c) = false := beq_eq_false_iff_ne.mpr hac
        rw [if_neg hac, List.count_cons]
        simp only [hbeq, List.length_cons, Bool.false_eq_true, if_false]
        simp only [List.length_cons] at ih
        omega

theorem splitOnChar_of_not_mem (c : Char) :
    ∀ l : List Char, c ∉ l → splitOnChar c l = [l]
  | [], _ => by simp [splitOnChar]
  | a :: rest, h => by
    have hac : a ≠ c := by
      intro e; exact h (e ▸ List.mem_cons_self a rest)
    have hr : c ∉ rest := fun e => h (List.mem_cons_of_mem a e)
    simp only [splitOnChar, splitOnChar_of_not_mem c rest hr, if_neg hac]

theorem takeWhile_append_of_neg {α : Type} (p : α → Bool) (a : α)
    (h : p a = false) : ∀ l : List α, (l ++ [a]).takeWhile p = l.takeWhile p
  | [] => by simp [List.takeWhile_cons, h]
  | x :: xs => by
    simp only [List.cons_append, List.takeWhile_cons,
      takeWhile_append_of_neg p a h xs]

theorem takeWhile_append_of_exists {α : Type} (p : α → Bool) (l₂ : List α) :
    ∀ l : List α, (∃ x ∈ l, p x = false) →
      (l ++ l₂).takeWhile p = l.takeWhile p
  | [], h => by
    rcases h with ⟨x, hx, _⟩
    exact absurd hx (List.not_mem_nil x)
  | y :: ys, h => by
    by_cases hpy : p y = true
    · rcases h with ⟨x, hx, hpx⟩
      rcases List.mem_cons.mp hx with rfl | hx'
      · rw [hpy] at hpx; cases hpx
      · simp only [List.cons_append, List.takeWhile_cons, hpy, if_pos rfl,
          takeWhile_append_of_exists p l₂ ys ⟨x, hx', hpx⟩]
    · have : p y = false := by cases hy : p y with
        | true => exact absurd hy hpy
        | false => rfl
      simp [List.takeWhile_cons, this]

theorem splitOnChar_getLast? (c : Char) :
    ∀ l : List Char, (splitOnChar c l).getLast? =
      some ((l.reverse.takeWhile (fun a => !(a == c))).reverse)
  | [] => by simp [splitOnChar]
  | a :: rest => by
    have ih := splitOnChar_getLast? c rest
    have hne := splitOnChar_ne_nil c rest
    cases h : splitOnChar c rest with
    | nil => exact absurd h hne
    | cons hd tl =>
      rw [h] at ih
      simp only [splitOnChar, h]
      by_cases hac : a = c
      · subst hac
        rw [if_pos rfl, List.getLast?_cons_cons, ih, List.reverse_cons,
          takeWhile_append_of_neg _ _ (by simp)]
      · rw [if_neg hac]
        cases tl with
        | nil =>
          have hcount : rest.count c = 0 := by
            have hlen := splitOnChar_length c rest
            rw [h] at hlen
            simpa using hlen.symm
          have hnm : c ∉ rest := List.count_eq_zero.mp hcount
          have hhd : hd = rest := by
            have h2 := h.symm.trans (splitOnChar_of_not_mem c rest hnm)
            injection h2
          rw [hhd]
          simp only [List.getLast?_singleton, List.reverse_cons]
          have hall : ∀ x ∈ rest.reverse ++ [a], (fun b => !(b == c)) x = true := by
            intro x hx
            rcases List.mem_append.mp hx with hx' | hx'
            · have hxr : x ∈ rest := List.mem_reverse.mp hx'
              have hxc : x ≠ c := fun e => hnm (e ▸ hxr)
              simpa using hxc
            · have hxa : x = a := by simpa using hx'
              subst hxa
              simpa using hac
          rw [List.takeWhile_eq_self_iff.mpr hall]
          simp
        | cons w ws =>
          have hcount : 0 < rest.count c := by
            have hlen := splitOnChar_length c rest
            rw [h] at hlen
            simp only [List.length_cons] at hlen
            omega
          have hmem : c ∈ rest := by
            by_contra hnm
            rw [List.count_eq_zero.mpr hnm] at hcount
            exact Nat.lt_irrefl 0 hcount
          rw [List.getLast?_cons_cons, ← List.getLast?_cons_cons (a := hd), ih,
            List.reverse_cons,
            takeWhile_append_of_exists _ _ _
              ⟨c, List.mem_reverse.mpr hmem, by simp⟩]

/-- The last segment of a URL is exactly the maximal slash-free suffix:
the substring after the last `/` (the whole string when there is none). -/
theorem last_slash_segment_eq (url : String) :
    last_slash_segment url =
      some (String.mk
        ((url.data.reverse.takeWhile (fun a => !(a == '/'))).reverse)) := by
  unfold last_slash_segment
  rw [splitOnChar_getLast?]
  rfl

/-! ## Lemmas about `[x]` stripping and `make_property` -/
theorem string_data_mk (l : List Char) : (String.mk l).data = l := rfl

theorem revXStrip_not_pattern :
    ∀ l : List Char, ∀ rest, revXStrip l ≠ ']' :: 'x' :: '[' :: rest := by
  intro l
  induction l using revXStrip.induct with
  | case1 rest ih =>
    intro r
    rw [revXStrip.eq_1]
    exact ih r
  | case2 l h =>
    intro r hr
    rw [revXStrip.eq_2 l h] at hr
    exact h r hr

/-- Stripping every trailing `[x]` leaves a name that no longer ends in
`[x]`. -/
theorem ends_with_x_trim (name : String) :
    ends_with_x (trim_end_matches_x name) = false := by
  unfold ends_with_x trim_end_matches_x
  simp only [string_data_mk, List.reverse_reverse]
  split
  · next heq => exact absurd heq (revXStrip_not_pattern _ _)
  · rfl

theorem make_property_name (tn : String) (e : ElementDefinition) :
    (make_property tn e).name =
      if ends_with_x (leaf_name tn e.path) then
        trim_end_matches_x (leaf_name tn e.path)
      else leaf_name tn e.path := rfl

theorem make_property_path (tn : String) (e : ElementDefinition) :
    (make_property tn e).path = e.path := rfl

theorem make_property_property_type (tn : String) (e : ElementDefinition) :
    (make_property tn e).property_type = determine_property_type e.types := rfl

theorem make_property_cardinality (tn : String) (e : ElementDefinition) :
    (make_property tn e).cardinality =
      { min := e.min
        max := match e.max with
          | .finite n => some n
          | .unbounded => none } := rfl

theorem make_property_is_choice (tn : String) (e : ElementDefinition) :
    (make_property tn e).is_choice = ends_with_x (leaf_name tn e.path) := rfl

theorem make_property_choice_types (tn : String) (e : ElementDefinition) :
    (make_property tn e).choice_types =
      if ends_with_x (leaf_name tn e.path) then e.types.map (·.code)
      else [] := rfl

/-- The name of a produced property never ends in `[x]`: either the leaf
did not, or the suffix was stripped. -/
theorem make_property_name_not_x (tn : String) (e : ElementDefinition) :
    ends_with_x ((make_property tn e).name) = false := by
  rw [make_property_name]
  cases h : ends_with_x (leaf_name tn e.path) with
  | true => rw [if_pos rfl, ends_with_x_trim]
  | false => rw [if_neg (by simp)]; exact h

theorem make_property_name_of_not_x (tn : String) (e : ElementDefinition)
    (h : ends_with_x (leaf_name tn e.path) = false) :
    (make_property tn e).name = leaf_name tn e.path := by
  rw [make_property_name, h]
  simp

/-! ## A recursion-friendly reformulation of the flattening fold

The fold `elements_to_properties` only consults the accumulated vector
through the names of its properties, so it is equal to a recursion that
carries the set of already-emitted names; the bridge is
`elements_to_properties_eq_rec`. -/
theorem etp_rec_congr (tn : String) :
    ∀ (elems : List ElementDefinition) (s1 s2 : List String),
      (∀ x, x ∈ s1 ↔ x ∈ s2) → etp_rec tn s1 elems = etp_rec tn s2 elems
  | [], _, _, _ => rfl
  | e :: rest, s1, s2, h => by
    simp only [etp_rec]
    by_cases hp : e.path = tn
    · rw [if_pos hp, if_pos hp, etp_rec_congr tn rest s1 s2 h]
    · rw [if_neg hp, if_neg hp]
      by_cases hs : leaf_name tn e.path ∈ s1
      · rw [if_pos hs, if_pos ((h _).mp hs), etp_rec_congr tn rest s1 s2 h]
      · rw [if_neg hs, if_neg (fun hs2 => hs ((h _).mpr hs2))]
        congr 1
        apply etp_rec_congr
        intro x
        simp only [List.mem_cons]
        exact or_congr Iff.rfl (h x)

theorem any_name_eq_mem (acc : List Property) (name : String) :
    acc.any (fun p => p.name == name) = true ↔ name ∈ acc.map Property.name := by
  rw [List.any_eq_true]
  constructor
  · rintro ⟨p, hp, hb⟩
    exact List.mem_map.mpr ⟨p, hp, beq_iff_eq.mp hb⟩
  · intro h
    rcases List.mem_map.mp h with ⟨p, hp, he⟩
    exact ⟨p, hp, beq_iff_eq.mpr he⟩

theorem foldl_etp_step (tn : String) :
    ∀ (elems : List ElementDefinition) (acc : List Property),
      elems.foldl (etp_step tn) acc =
        acc ++ etp_rec tn (acc.map Property.name) elems
  | [], acc => by simp [etp_rec]
  | e :: rest, acc => by
    rw [List.foldl_cons, foldl_etp_step tn rest]
    show etp_step tn acc e ++ _ = _
    unfold etp_step
    simp only [etp_rec]
    by_cases hp : e.path = tn
    · rw [if_pos (beq_iff_eq.mpr hp), if_pos hp]
    · rw [if_neg (by simp [hp]), if_neg hp]
      by_cases hs : leaf_name tn e.path ∈ acc.map Property.name
      · rw [if_pos ((any_name_eq_mem acc _).mpr hs), if_pos hs]
      · rw [if_neg (fun hc => hs ((any_name_eq_mem acc _).mp hc)), if_neg hs]
        rw [List.append_assoc, List.singleton_append, List.map_append]
        congr 1
        congr 1
        apply etp_rec_congr
        intro x
        simp only [List.mem_append, List.mem_cons, List.map_cons,
          List.mem_singleton, List.map_nil]
        tauto

/-- The flattening fold equals the seen-names recursion started empty. -/
theorem elements_to_properties_eq_rec (elems : List ElementDefinition)
    (tn : String) : elements_to_properties elems tn = etp_rec tn [] elems := by
  unfold elements_to_properties
  rw [foldl_etp_step]
  simp

/-- Every property produced by the recursion comes from a non-root
element of the input via `make_property`. -/
theorem mem_etp_rec (tn : String) :
    ∀ (elems : List ElementDefinition) (seen : List String) (p : Property),
      p ∈ etp_rec tn seen elems →
      ∃ e ∈ elems, e.path ≠ tn ∧ p = make_property tn e
  | [], _, _, h => absurd h (List.not_mem_nil _)
  | e :: rest, seen, p, h => by
    simp only [etp_rec] at h
    by_cases hp : e.path = tn
    · rw [if_pos hp] at h
      rcases mem_etp_rec tn rest seen p h with ⟨e', he', hne, heq⟩
      exact ⟨e', List.mem_cons_of_mem e he', hne, heq⟩
    · rw [if_neg hp] at h
      by_cases hs : leaf_name tn e.path ∈ seen
      · rw [if_pos hs] at h
        rcases mem_etp_rec tn rest seen p h with ⟨e', he', hne, heq⟩
        exact ⟨e', List.mem_cons_of_mem e he', hne, heq⟩
      · rw [if_neg hs] at h
        rcases List.mem_cons.mp h with rfl | h'
        · exact ⟨e, List.mem_cons_self e rest, hp, rfl⟩
        · rcases mem_etp_rec tn rest _ p h' with ⟨e', he', hne, heq⟩
          exact ⟨e', List.mem_cons_of_mem e he', hne, heq⟩

/-- Every property produced by `elements_to_properties` comes from a
non-root element via `make_property`. -/
theorem mem_elements_to_properties (elems : List ElementDefinition)
    (tn : String) (p : Property) (h : p ∈ elements_to_properties elems tn) :
    ∃ e ∈ elems, e.path ≠ tn ∧ p = make_property tn e := by
  rw [elements_to_properties_eq_rec] at h
  exact mem_etp_rec tn elems [] p h

/-! ## Deduplication by first occurrence -/
theorem firstDedup_cons (a : String) (l : List String) :
    firstDedup (a :: l) = a :: firstDedup (l.filter (fun x => !(x == a))) := by
  rw [firstDedup]

theorem notSeen_cons_bool (a x : String) (seen : List String) :
    (!(x == a) && decide (x ∉ seen)) = decide (x ∉ a :: seen) := by
  rw [Bool.eq_iff_iff]
  simp only [Bool.and_eq_true, Bool.not_eq_true', beq_eq_false_iff_ne,
    decide_eq_true_eq, List.mem_cons, not_or]

/-- The root element never contributes: filtering it away does not change
the recursion's output. -/
theorem etp_rec_filter_root (tn : String) :
    ∀ (elems : List ElementDefinition) (seen : List String),
      etp_rec tn seen elems =
        etp_rec tn seen (elems.filter (fun e => e.path ≠ tn))
  | [], _ => rfl
  | e :: rest, seen => by
    simp only [etp_rec, List.filter_cons]
    by_cases hp : e.path = tn
    · have hcond : ¬((decide (e.path ≠ tn)) = true) := by simp [hp]
      rw [if_pos hp, if_neg hcond, etp_rec_filter_root tn rest seen]
    · have hcond : (decide (e.path ≠ tn)) = true := by simp [hp]
      rw [if_neg hp, if_pos hcond]
      simp only [etp_rec]
      rw [if_neg hp]
      by_cases hs : leaf_name tn e.path ∈ seen
      · rw [if_pos hs, if_pos hs, etp_rec_filter_root tn rest seen]
      · rw [if_neg hs, if_neg hs, etp_rec_filter_root tn rest _]

/-- Under the no-`[x]` hypothesis the names of the produced properties
are exactly the first-occurrence deduplication of the derived leaf names
not yet seen. -/
theorem etp_rec_map_name (tn : String) :
    ∀ (elems : List ElementDefinition) (seen : List String),
      (∀ e ∈ elems, e.path ≠ tn → ends_with_x (leaf_name tn e.path) = false) →
      (etp_rec tn seen elems).map Property.name =
        firstDedup (((elems.filter (fun e => e.path ≠ tn)).map
          (fun e => leaf_name tn e.path)).filter (fun x => x ∉ seen))
  | [], seen, _ => by simp [etp_rec, firstDedup]
  | e :: rest, seen, hx => by
    have hxr : ∀ e' ∈ rest, e'.path ≠ tn →
        ends_with_x (leaf_name tn e'.path) = false :=
      fun e' he' => hx e' (List.mem_cons_of_mem e he')
    simp only [etp_rec, List.filter_cons]
    by_cases hp : e.path = tn
    · have hcond : ¬((decide (e.path ≠ tn)) = true) := by simp [hp]
      rw [if_pos hp, if_neg hcond, etp_rec_map_name tn rest seen hxr]
    · have hlx : ends_with_x (leaf_name tn e.path) = false :=
        hx e (List.mem_cons_self e rest) hp
      have hcond : (decide (e.path ≠ tn)) = true := by simp [hp]
      rw [if_neg hp, if_pos hcond]
      simp only [List.map_cons, List.filter_cons]
      by_cases hs : leaf_name tn e.path ∈ seen
      · have hcond2 : ¬((decide (leaf_name tn e.path ∉ seen)) = true) := by
          simp [hs]
        rw [if_pos hs, if_neg hcond2, etp_rec_map_name tn rest seen hxr]
      · have hcond2 : (decide (leaf_name tn e.path ∉ seen)) = true := by
          simp [hs]
        rw [if_neg hs, if_pos hcond2]
        rw [firstDedup_cons]
        simp only [List.map_cons]
        rw [make_property_name_of_not_x tn e hlx,
          etp_rec_map_name tn rest _ hxr]
        congr 1
        rw [List.filter_filter]
        simp only [notSeen_cons_bool]

/-- Under the no-`[x]` hypothesis each produced property comes from the
first non-root element bearing its leaf name. -/
theorem etp_rec_first_wins (tn : String) :
    ∀ (elems : List ElementDefinition) (seen : List String),
      (∀ e ∈ elems, e.path ≠ tn → ends_with_x (leaf_name tn e.path) = false) →
      ∀ p ∈ etp_rec tn seen elems,
        p.name ∉ seen ∧
        ∃ e, (elems.filter (fun e => e.path ≠ tn)).find?
            (fun e => leaf_name tn e.path == p.name) = some e ∧
          p = make_property tn e
  | [], _, _, p, hp => absurd hp (List.not_mem_nil p)
  | e :: rest, seen, hx, p, hp => by
    have hxr : ∀ e' ∈ rest, e'.path ≠ tn →
        ends_with_x (leaf_name tn e'.path) = false :=
      fun e' he' => hx e' (List.mem_cons_of_mem e he')
    simp only [etp_rec] at hp
    simp only [List.filter_cons]
    by_cases hroot : e.path = tn
    · rw [if_pos hroot] at hp
      have hcond : ¬((decide (e.path ≠ tn)) = true) := by simp [hroot]
      rw [if_neg hcond]
      exact etp_rec_first_wins tn rest seen hxr p hp
    · have hlx : ends_with_x (leaf_name tn e.path) = false :=
        hx e (List.mem_cons_self e rest) hroot
      rw [if_neg hroot] at hp
      have hcond : (decide (e.path ≠ tn)) = true := by simp [hroot]
      rw [if_pos hcond]
      by_cases hs : leaf_name tn e.path ∈ seen
      · rw [if_pos hs] at hp
        rcases etp_rec_first_wins tn rest seen hxr p hp with ⟨hns, e', hf, he'⟩
        have hneg : ¬((leaf_name tn e.path == p.name) = true) := by
          intro hb
          exact hns (beq_iff_eq.mp hb ▸ hs)
        exact ⟨hns, e',
          (List.find?_cons_of_neg
            (p := fun e0 : ElementDefinition => leaf_name tn e0.path == p.name) _ hneg).trans hf,
          he'⟩
      · rw [if_neg hs] at hp
        rcases List.mem_cons.mp hp with rfl | hp'
        · have hpos : (leaf_name tn e.path == (make_property tn e).name)
              = true := by
            rw [make_property_name_of_not_x tn e hlx]
            exact beq_self_eq_true _
          exact ⟨by rw [make_property_name_of_not_x tn e hlx]; exact hs,
            e, List.find?_cons_of_pos
              (p := fun e0 : ElementDefinition => leaf_name tn e0.path ==
                (make_property tn e).name) _ hpos, rfl⟩
        · rcases etp_rec_first_wins tn rest _ hxr p hp' with ⟨hns, e', hf, he'⟩
          have hne : p.name ≠ leaf_name tn e.path := by
            intro heq
            exact hns (List.mem_cons.mpr (Or.inl
              (by rw [heq, make_property_name_of_not_x tn e hlx])))
          have hneg : ¬((leaf_name tn e.path == p.name) = true) := by
            intro hb
            exact hne (beq_iff_eq.mp hb).symm
          exact ⟨fun hmem => hns (List.mem_cons_of_mem _ hmem), e',
            (List.find?_cons_of_neg
              (p := fun e0 : ElementDefinition => leaf_name tn e0.path == p.name) _ hneg).trans hf,
            he'⟩

/-- A choice element (leaf ending in `[x]`) is never skipped by the
dedup check, as long as no already-seen name ends in `[x]` (which is an
invariant of the recursion, since emitted names are `[x]`-stripped). -/
theorem etp_rec_choice_mem (tn : String) :
    ∀ (elems : List ElementDefinition) (seen : List String),
      (∀ s ∈ seen, ends_with_x s = false) →
      ∀ e ∈ elems, e.path ≠ tn → ends_with_x (leaf_name tn e.path) = true →
        make_property tn e ∈ etp_rec tn seen elems
  | [], _, _, e, he, _, _ => absurd he (List.not_mem_nil e)
  | e0 :: rest, seen, hseen, e, he, hne, hx => by
    simp only [etp_rec]
    by_cases hroot : e0.path = tn
    · rw [if_pos hroot]
      rcases List.mem_cons.mp he with rfl | he'
      · exact absurd hroot hne
      · exact etp_rec_choice_mem tn rest seen hseen e he' hne hx
    · rw [if_neg hroot]
      rcases List.mem_cons.mp he with rfl | he'
      · have hns : leaf_name tn e.path ∉ seen := by
          intro hmem
          rw [hseen _ hmem] at hx
          cases hx
        rw [if_neg hns]
        exact List.mem_cons_self _ _
      · by_cases hs : leaf_name tn e0.path ∈ seen
        · rw [if_pos hs]
          exact etp_rec_choice_mem tn rest seen hseen e he' hne hx
        · rw [if_neg hs]
          refine List.mem_cons_of_mem _ ?_
          apply etp_rec_choice_mem tn rest _ ?_ e he' hne hx
          intro s hsm
          rcases List.mem_cons.mp hsm with rfl | hsm'
          · exact make_property_name_not_x tn e0
          · exact hseen s hsm'

/-! ## Case lemmas for `determine_property_type` -/
theorem filterMap_last_slash (ps : List String) :
    ps.filterMap last_slash_segment =
      ps.map (fun url =>
        String.mk ((url.data.reverse.takeWhile (fun a => !(a == '/'))).reverse)) := by
  induction ps with
  | nil => rfl
  | cons u us ih =>
    rw [List.filterMap_cons, last_slash_segment_eq u, List.map_cons, ih]

theorem dpt_nil : determine_property_type [] = .backboneElement [] := rfl

theorem dpt_reference (t : ElementType) (hc : t.code = "Reference")
    (hp : t.target_profiles ≠ []) :
    determine_property_type [t] =
      .reference (t.target_profiles.map (fun url =>
        String.mk
          ((url.data.reverse.takeWhile (fun a => !(a == '/'))).reverse))) := by
  have hcond : (t.code == "Reference" && !t.target_profiles.isEmpty) = true := by
    rw [Bool.and_eq_true]
    refine ⟨beq_iff_eq.mpr hc, ?_⟩
    cases h : t.target_profiles with
    | nil => exact absurd h hp
    | cons a l => simp
  simp only [determine_property_type]
  rw [if_pos hcond, filterMap_last_slash]

theorem is_primitive_ne_reference (s : String) (h : is_primitive s = true) :
    s ≠ "Reference" := by
  intro he
  rw [he] at h
  exact absurd h (by decide)

theorem dpt_primitive (t : ElementType) (h : is_primitive t.code = true) :
    determine_property_type [t] = .primitive t.code := by
  have hcond : (t.code == "Reference" && !t.target_profiles.isEmpty) = false := by
    rw [Bool.and_eq_false_iff]
    exact Or.inl (beq_eq_false_iff_ne.mpr (is_primitive_ne_reference _ h))
  simp only [determine_property_type]
  rw [if_neg (by simp [hcond]), if_pos h]

theorem dpt_complex (t : ElementType)
    (hnr : ¬(t.code = "Reference" ∧ t.target_profiles ≠ []))
    (hnp : is_primitive t.code = false) :
    determine_property_type [t] = .complex t.code := by
  have hcond : (t.code == "Reference" && !t.target_profiles.isEmpty) = false := by
    by_cases hc : t.code = "Reference"
    · have hp : t.target_profiles = [] := by
        by_contra hne
        exact hnr ⟨hc, hne⟩
      rw [hp]
      simp
    · rw [Bool.and_eq_false_iff]
      exact Or.inl (beq_eq_false_iff_ne.mpr hc)
  simp only [determine_property_type]
  rw [if_neg (by simp [hcond]), if_neg (by simp [hnp])]

theorem dpt_choice (ts : List ElementType) (h : 2 ≤ ts.length) :
    determine_property_type ts = .choice (ts.map (·.code)) := by
  match ts, h with
  | t1 :: t2 :: rest, _ => rfl

/-! ## Claim theorems: the flattening algorithm -/
/-- C1: for every property produced by `elements_to_properties` the
property type comes from `determine_property_type` of the source
element's declared types, and `determine_property_type` selects, in
priority order: zero declared types gives `BackboneElement` with an empty
property list; one type with code `Reference` and a non-empty
`target_profiles` gives `Reference` whose target names are the substring
after the last `/` of each profile URL; one type in the primitive
whitelist gives `Primitive` with that code; one type otherwise gives
`Complex` with that code; two or more types give `Choice` over all
codes. -/
theorem claim_C1 :
    (∀ (elems : List ElementDefinition) (tn : String) (p : Property),
        p ∈ elements_to_properties elems tn →
        ∃ e ∈ elems, e.path ≠ tn ∧
          p.property_type = determine_property_type e.types) ∧
    determine_property_type [] = PropertyType.backboneElement [] ∧
    (∀ t : ElementType, t.code = "Reference" → t.target_profiles ≠ [] →
        determine_property_type [t] =
          .reference (t.target_profiles.map (fun url =>
            String.mk
              ((url.data.reverse.takeWhile (fun a => !(a == '/'))).reverse)))) ∧
    (∀ t : ElementType, is_primitive t.code = true →
        determine_property_type [t] = .primitive t.code) ∧
    (∀ t : ElementType, ¬(t.code = "Reference" ∧ t.target_profiles ≠ []) →
        is_primitive t.code = false →
        determine_property_type [t] = .complex t.code) ∧
    (∀ ts : List ElementType, 2 ≤ ts.length →
        determine_property_type ts = .choice (ts.map (·.code))) := by
  refine ⟨?_, dpt_nil, dpt_reference, dpt_primitive, dpt_complex, dpt_choice⟩
  intro elems tn p hp
  rcases mem_elements_to_properties elems tn p hp with ⟨e, he, hne, rfl⟩
  exact ⟨e, he, hne, make_property_property_type tn e⟩

/-- Witness for C1 at concrete inputs: the spec's
Practitioner/Organization reference example, a primitive, a complex type
and a two-type choice. -/
theorem claim_C1_witness :
    determine_property_type
        [⟨"Reference",
          ["http://hl7.org/fhir/StructureDefinition/Practitioner",
           "http://hl7.org/fhir/StructureDefinition/Organization"]⟩] =
      .reference ["Practitioner", "Organization"] ∧
    determine_property_type [⟨"boolean", []⟩] = .primitive "boolean" ∧
    determine_property_type [⟨"HumanName", []⟩] = .complex "HumanName" ∧
    determine_property_type [⟨"boolean", []⟩, ⟨"dateTime", []⟩] =
      .choice ["boolean", "dateTime"] := by
  refine ⟨?_, ?_, ?_, ?_⟩
  · exact (claim_C1.2.2.1 ⟨"Reference", _⟩ rfl (by decide)).trans (by rfl)
  · exact (claim_C1.2.2.2.1 ⟨"boolean", []⟩ (by decide)).trans (by rfl)
  · exact (claim_C1.2.2.2.2.1 ⟨"HumanName", []⟩ (by decide)
      (by decide)).trans (by rfl)
  · exact (claim_C1.2.2.2.2.2 [⟨"boolean", []⟩, ⟨"dateTime", []⟩]
      (by decide)).trans (by rfl)

/-- C2 as stated is false: the dedup check compares each new element's
raw leaf name against stored property names whose `[x]` suffix has been
stripped, so two elements sharing the leaf `value[x]` produce two
properties (both named `value`) instead of exactly one. -/
theorem claim_C2_counterexample :
    leaf_name "T" "T.value[x]" = "value[x]" ∧
    ("T.value[x]" : String) ≠ "T" ∧
    (elements_to_properties
        [⟨"T", none, none, 0, .unbounded, [], none, []⟩,
         ⟨"T.value[x]", none, none, 0, .finite 1,
           [⟨"string", []⟩, ⟨"integer", []⟩], none, []⟩,
         ⟨"T.value[x]", none, none, 1, .finite 1,
           [⟨"string", []⟩, ⟨"integer", []⟩], none, []⟩] "T").map Property.name
      = ["value", "value"] := by
  refine ⟨by decide, by decide, by rfl⟩

/-- C2 amended: the root element contributes no property, and provided no
non-root element's derived leaf name ends in `[x]` (for `[x]` leaves the
dedup check compares the raw leaf against stripped stored names and never
fires), elements sharing the same derived leaf name produce exactly one
property: the produced names are the first-occurrence deduplication of
the leaf names, and each property is built from the first non-root
element bearing its leaf. The concrete contact example flattens to one
`BackboneElement` property. -/
theorem claim_C2 :
    (∀ (elems : List ElementDefinition) (tn : String),
        elements_to_properties elems tn =
          elements_to_properties (elems.filter (fun e => e.path ≠ tn)) tn) ∧
    (∀ (elems : List ElementDefinition) (tn : String),
        (∀ e ∈ elems, e.path ≠ tn →
          ends_with_x (leaf_name tn e.path) = false) →
        (elements_to_properties elems tn).map Property.name =
            firstDedup ((elems.filter (fun e => e.path ≠ tn)).map
              (fun e => leaf_name tn e.path)) ∧
          ∀ p ∈ elements_to_properties elems tn,
            ∃ e, (elems.filter (fun e => e.path ≠ tn)).find?
                (fun e => leaf_name tn e.path == p.name) = some e ∧
              p = make_property tn e) ∧
    (elements_to_properties
        [⟨"TestResource", none, none, 0, .unbounded, [], none, []⟩,
         ⟨"TestResource.contact", none, none, 0, .finite 1, [], none, []⟩,
         ⟨"TestResource.contact.relationship", none, none, 0, .finite 1,
           [⟨"CodeableConcept", []⟩], none, []⟩] "TestResource" =
        [make_property "TestResource"
          ⟨"TestResource.contact", none, none, 0, .finite 1, [], none, []⟩] ∧
      (make_property "TestResource"
          ⟨"TestResource.contact", none, none, 0, .finite 1, [],
            none, []⟩).name = "contact" ∧
      (make_property "TestResource"
          ⟨"TestResource.contact", none, none, 0, .finite 1, [],
            none, []⟩).property_type = PropertyType.backboneElement []) := by
  refine ⟨?_, ?_, by rfl, by rfl, by rfl⟩
  · intro elems tn
    rw [elements_to_properties_eq_rec, elements_to_properties_eq_rec]
    exact etp_rec_filter_root tn elems []
  · intro elems tn hx
    constructor
    · rw [elements_to_properties_eq_rec, etp_rec_map_name tn elems [] hx]
      congr 1
      have hpred : (fun x : String => decide (x ∉ ([] : List String))) =
          fun _ => true := by
        funext x
        simp
      rw [hpred, List.filter_true]
    · intro p hp
      rw [elements_to_properties_eq_rec] at hp
      rcases etp_rec_first_wins tn elems [] hx p hp with ⟨_, e, hf, he⟩
      exact ⟨e, hf, he⟩

/-- Witness for C2 at a concrete input: a list whose three non-root
leaves are `contact`, `contact`, `name` flattens to properties named
`contact`, `name`, each built from the first element with that leaf. -/
theorem claim_C2_witness :
    (elements_to_properties
        [⟨"T", none, none, 0, .unbounded, [], none, []⟩,
         ⟨"T.contact", none, none, 0, .finite 1, [], none, []⟩,
         ⟨"T.contact.relationship", none, none, 0, .finite 1,
           [⟨"CodeableConcept", []⟩], none, []⟩,
         ⟨"T.name", none, none, 0, .unbounded,
           [⟨"HumanName", []⟩], none, []⟩] "T").map Property.name =
      firstDedup ["contact", "contact", "name"] := by
  have hx : ∀ e ∈
      [(⟨"T", none, none, 0, .unbounded, [], none, []⟩ : ElementDefinition),
       ⟨"T.contact", none, none, 0, .finite 1, [], none, []⟩,
       ⟨"T.contact.relationship", none, none, 0, .finite 1,
         [⟨"CodeableConcept", []⟩], none, []⟩,
       ⟨"T.name", none, none, 0, .unbounded, [⟨"HumanName", []⟩], none, []⟩],
      e.path ≠ "T" → ends_with_x (leaf_name "T" e.path) = false := by decide
  exact ((claim_C2.2.1 _ "T" hx).1).trans (by rfl)

/-- C3: an element whose derived leaf name ends in `[x]` is never
dropped by the dedup check (stored names are `[x]`-stripped), and the
produced property has the `[x]`-stripped leaf as its name,
`is_choice = true`, `choice_types` equal to the declared type codes in
order, and, when two or more types are declared, property type `Choice`
over those codes; the `Patient.deceased[x]` example parses to the
expected property. -/
theorem claim_C3 :
    (∀ (elems : List ElementDefinition) (tn : String) (e : ElementDefinition),
        e ∈ elems → e.path ≠ tn →
        ends_with_x (leaf_name tn e.path) = true →
        make_property tn e ∈ elements_to_properties elems tn) ∧
    (∀ (tn : String) (e : ElementDefinition),
        ends_with_x (leaf_name tn e.path) = true →
        (make_property tn e).name = trim_end_matches_x (leaf_name tn e.path) ∧
        (make_property tn e).is_choice = true ∧
        (make_property tn e).choice_types = e.types.map (·.code) ∧
        (2 ≤ e.types.length →
          (make_property tn e).property_type =
            .choice (e.types.map (·.code)))) ∧
    elements_to_properties
        [⟨"Patient", none, none, 0, .unbounded, [], none, []⟩,
         ⟨"Patient.deceased[x]", none, none, 0, .finite 1,
           [⟨"boolean", []⟩, ⟨"dateTime", []⟩], none, []⟩] "Patient" =
      [Property.mk "deceased" "Patient.deceased[x]"
        (.choice ["boolean", "dateTime"]) ⟨0, some 1⟩ true
        ["boolean", "dateTime"] false false none [] "" "" none []] := by
  refine ⟨?_, ?_, by rfl⟩
  · intro elems tn e he hne hx
    rw [elements_to_properties_eq_rec]
    exact etp_rec_choice_mem tn elems []
      (fun s hs => absurd hs (List.not_mem_nil s)) e he hne hx
  · intro tn e hx
    refine ⟨?_, ?_, ?_, ?_⟩
    · rw [make_property_name, if_pos hx]
    · rw [make_property_is_choice, hx]
    · rw [make_property_choice_types, if_pos hx]
    · intro h2
      rw [make_property_property_type, dpt_choice e.types h2]

/-- Witness for C3: the `deceased[x]` element inside the Patient example
is produced, with the stripped name, the choice flag and the choice
types. -/
theorem claim_C3_witness :
    make_property "Patient"
        ⟨"Patient.deceased[x]", none, none, 0, .finite 1,
          [⟨"boolean", []⟩, ⟨"dateTime", []⟩], none, []⟩ ∈
      elements_to_properties
        [⟨"Patient", none, none, 0, .unbounded, [], none, []⟩,
         ⟨"Patient.deceased[x]", none, none, 0, .finite 1,
           [⟨"boolean", []⟩, ⟨"dateTime", []⟩], none, []⟩] "Patient" ∧
    (make_property "Patient"
        ⟨"Patient.deceased[x]", none, none, 0, .finite 1,
          [⟨"boolean", []⟩, ⟨"dateTime", []⟩], none, []⟩).name =
      "deceased" := by
  refine ⟨claim_C3.1 _ "Patient" _ ?_ (by decide) (by decide), ?_⟩
  · exact List.mem_cons_of_mem _ (List.mem_cons_self _ _)
  · exact ((claim_C3.2.1 "Patient" _ (by decide)).1).trans (by rfl)

/-- C5 amended: `elements_to_properties` copies each element's `min` and
`max` verbatim into the property's cardinality (it performs no
validation), so whenever every input element satisfies `min ≤ max` for a
finite max, every produced cardinality satisfies `min ≤ max` as well. -/
theorem claim_C5 :
    ∀ (elems : List ElementDefinition) (tn : String),
      (∀ e ∈ elems, ∀ n, e.max = Cardinality.finite n → e.min ≤ n) →
      ∀ p ∈ elements_to_properties elems tn, ∀ m,
        p.cardinality.max = some m → p.cardinality.min ≤ m := by
  intro elems tn hwf p hp m hm
  rcases mem_elements_to_properties elems tn p hp with ⟨e, he, _, rfl⟩
  rw [make_property_cardinality] at hm ⊢
  cases hmax : e.max with
  | finite n =>
    rw [hmax] at hm
    simp only at hm
    cases hm
    exact hwf e he m (by rw [hmax])
  | unbounded =>
    rw [hmax] at hm
    simp at hm

/-- Witness for C5: a concrete list whose cardinalities are `1..1` and
`0..*` is well-formed and satisfies the invariant on every produced
property. -/
theorem claim_C5_witness :
    (∀ e ∈ ([⟨"T", none, none, 0, .unbounded, [], none, []⟩,
         ⟨"T.a", none, none, 1, .finite 1, [⟨"string", []⟩], none, []⟩,
         ⟨"T.b", none, none, 0, .unbounded, [⟨"string", []⟩], none, []⟩] :
           List ElementDefinition),
      ∀ n, e.max = Cardinality.finite n → e.min ≤ n) ∧
    (∀ p ∈ elements_to_properties
        [⟨"T", none, none, 0, .unbounded, [], none, []⟩,
         ⟨"T.a", none, none, 1, .finite 1, [⟨"string", []⟩], none, []⟩,
         ⟨"T.b", none, none, 0, .unbounded, [⟨"string", []⟩], none, []⟩] "T",
      ∀ m, p.cardinality.max = some m → p.cardinality.min ≤ m) := by
  have hwf : ∀ e ∈ ([⟨"T", none, none, 0, .unbounded, [], none, []⟩,
         ⟨"T.a", none, none, 1, .finite 1, [⟨"string", []⟩], none, []⟩,
         ⟨"T.b", none, none, 0, .unbounded, [⟨"string", []⟩], none, []⟩] :
           List ElementDefinition),
      ∀ n, e.max = Cardinality.finite n → e.min ≤ n := by
    intro e he n hn
    simp only [List.mem_cons, List.not_mem_nil, or_false] at he
    rcases he with rfl | rfl | rfl
    · simp at hn
    · injection hn with h
      subst h
      decide
    · simp at hn
  exact ⟨hwf, claim_C5 _ "T" hwf⟩

/-! ## Claim C4: parse validation -/
theorem except_isOk_ok {α : Type} (a : α) :
    (Except.ok a : Except Err α).isOk = true := rfl

theorem except_isOk_error {α : Type} (e : Err) :
    (Except.error e : Except Err α).isOk = false := rfl

theorem except_map_error {α β : Type} (f : α → β) (e : Err) :
    Except.map f (Except.error e : Except Err α) = Except.error e := rfl

theorem except_map_ok {α β : Type} (f : α → β) (a : α) :
    Except.map f (Except.ok a : Except Err α) = Except.ok (f a) := rfl

theorem parse_isOk_iff (j : Json) (p : StructureDefinitionParser) :
    ((StructureDefinitionParser.parse p j).1.isOk = true) ↔
      parse_success_condition j := by
  unfold StructureDefinitionParser.parse parse_success_condition Json.get_str
  cases h1 : (j.get "resourceType").bind Json.as_str with
  | none => simp [except_isOk_error]
  | some rt =>
    simp only []
    by_cases hrt : rt = "StructureDefinition"
    · subst hrt
      have hne : ¬(("StructureDefinition" : String) ≠ "StructureDefinition") :=
        by simp
      rw [if_neg hne]
      cases h2 : (j.get "url").bind Json.as_str with
      | none => simp [except_isOk_error]
      | some url =>
        simp only []
        cases h3 : (j.get "name").bind Json.as_str with
        | none => simp [except_isOk_error]
        | some name =>
          simp only []
          cases h4 : (j.get "kind").bind Json.as_str with
          | none => simp [except_isOk_error]
          | some kind =>
            simp only []
            cases h5 : structure_kind_of_string kind with
            | none => simp [except_isOk_error, h5]
            | some sk =>
              simp only []
              cases h6 : j.get "snapshot" with
              | some snap =>
                simp only []
                cases h7 : parse_element_definitions snap with
                | error e => simp [except_isOk_error, except_map_error, h7]
                | ok es => simp [except_isOk_ok, except_map_ok, h7, h5]
              | none =>
                simp only []
                cases h7 : j.get "differential" with
                | none => simp [except_isOk_error]
                | some diff =>
                  simp only []
                  cases h8 : parse_element_definitions diff with
                  | error e => simp [except_isOk_error, except_map_error, h8]
                  | ok es => simp [except_isOk_ok, except_map_ok, h8, h5]
    · rw [if_pos hrt]
      simp [except_isOk_error, hrt]

theorem parse_err_rt_missing (j : Json) (p : StructureDefinitionParser)
    (h : j.get_str "resourceType" = none) :
    (StructureDefinitionParser.parse p j).1 =
      .error (.parser "Missing resourceType") := by
  unfold Json.get_str at h
  unfold StructureDefinitionParser.parse
  rw [h]

theorem parse_err_rt_wrong (j : Json) (p : StructureDefinitionParser)
    (rt : String) (h : j.get_str "resourceType" = some rt)
    (hne : rt ≠ "StructureDefinition") :
    (StructureDefinitionParser.parse p j).1 =
      .error (.parser ("Expected StructureDefinition, got " ++ rt)) := by
  unfold Json.get_str at h
  unfold StructureDefinitionParser.parse
  rw [h]
  simp only []
  rw [if_pos hne]

theorem parse_err_url (j : Json) (p : StructureDefinitionParser)
    (h1 : j.get_str "resourceType" = some "StructureDefinition")
    (h2 : j.get_str "url" = none) :
    (StructureDefinitionParser.parse p j).1 =
      .error (.parser "Missing url") := by
  unfold Json.get_str at h1 h2
  unfold StructureDefinitionParser.parse
  have hne : ¬(("StructureDefinition" : String) ≠ "StructureDefinition") :=
    by simp
  rw [h1]
  simp only []
  rw [if_neg hne, h2]

theorem parse_err_name (j : Json) (p : StructureDefinitionParser)
    (url : String)
    (h1 : j.get_str "resourceType" = some "StructureDefinition")
    (h2 : j.get_str "url" = some url)
    (h3 : j.get_str "name" = none) :
    (StructureDefinitionParser.parse p j).1 =
      .error (.parser "Missing name") := by
  unfold Json.get_str at h1 h2 h3
  unfold StructureDefinitionParser.parse
  have hne : ¬(("StructureDefinition" : String) ≠ "StructureDefinition") :=
    by simp
  rw [h1]
  simp only []
  rw [if_neg hne, h2]
  simp only []
  rw [h3]

theorem parse_err_kind_missing (j : Json) (p : StructureDefinitionParser)
    (url name : String)
    (h1 : j.get_str "resourceType" = some "StructureDefinition")
    (h2 : j.get_str "url" = some url)
    (h3 : j.get_str "name" = some name)
    (h4 : j.get_str "kind" = none) :
    (StructureDefinitionParser.parse p j).1 =
      .error (.parser "Missing kind") := by
  unfold Json.get_str at h1 h2 h3 h4
  unfold StructureDefinitionParser.parse
  have hne : ¬(("StructureDefinition" : String) ≠ "StructureDefinition") :=
    by simp
  rw [h1]
  simp only []
  rw [if_neg hne, h2]
  simp only []
  rw [h3]
  simp only []
  rw [h4]

theorem parse_err_kind_unknown (j : Json) (p : StructureDefinitionParser)
    (url name k : String)
    (h1 : j.get_str "resourceType" = some "StructureDefinition")
    (h2 : j.get_str "url" = some url)
    (h3 : j.get_str "name" = some name)
    (h4 : j.get_str "kind" = some k)
    (h5 : structure_kind_of_string k = none) :
    (StructureDefinitionParser.parse p j).1 =
      .error (.parser ("Unknown kind: " ++ k)) := by
  unfold Json.get_str at h1 h2 h3 h4
  unfold StructureDefinitionParser.parse
  have hne : ¬(("StructureDefinition" : String) ≠ "StructureDefinition") :=
    by simp
  rw [h1]
  simp only []
  rw [if_neg hne, h2]
  simp only []
  rw [h3]
  simp only []
  rw [h4]
  simp only []
  rw [h5]

theorem parse_err_no_container (j : Json) (p : StructureDefinitionParser)
    (url name k : String) (sk : StructureKind)
    (h1 : j.get_str "resourceType" = some "StructureDefinition")
    (h2 : j.get_str "url" = some url)
    (h3 : j.get_str "name" = some name)
    (h4 : j.get_str "kind" = some k)
    (h5 : structure_kind_of_string k = some sk)
    (h6 : j.get "snapshot" = none)
    (h7 : j.get "differential" = none) :
    (StructureDefinitionParser.parse p j).1 =
      .error (.parser "Missing both snapshot and differential") := by
  unfold Json.get_str at h1 h2 h3 h4
  unfold StructureDefinitionParser.parse
  have hne : ¬(("StructureDefinition" : String) ≠ "StructureDefinition") :=
    by simp
  rw [h1]
  simp only []
  rw [if_neg hne, h2]
  simp only []
  rw [h3]
  simp only []
  rw [h4]
  simp only []
  rw [h5]
  simp only []
  rw [h6]
  simp only []
  rw [h7]

theorem parse_snapshot_wins (j : Json) (p : StructureDefinitionParser)
    (url name k : String) (sk : StructureKind) (snap : Json)
    (es : List ElementDefinition)
    (h1 : j.get_str "resourceType" = some "StructureDefinition")
    (h2 : j.get_str "url" = some url)
    (h3 : j.get_str "name" = some name)
    (h4 : j.get_str "kind" = some k)
    (h5 : structure_kind_of_string k = some sk)
    (h6 : j.get "snapshot" = some snap)
    (h7 : parse_element_definitions snap = .ok es) :
    ∃ ps, (StructureDefinitionParser.parse p j).1 = .ok ps ∧
      ps.elements = es ∧ ps.differential = false := by
  unfold Json.get_str at h1 h2 h3 h4
  unfold StructureDefinitionParser.parse
  have hne : ¬(("StructureDefinition" : String) ≠ "StructureDefinition") :=
    by simp
  rw [h1]
  simp only []
  rw [if_neg hne, h2]
  simp only []
  rw [h3]
  simp only []
  rw [h4]
  simp only []
  rw [h5]
  simp only []
  rw [h6]
  simp only []
  rw [h7, except_map_ok]
  simp only []
  exact ⟨_, rfl, rfl, rfl⟩

/-- C4 refuted as stated: on `c4_json` none of the four listed
validation conditions is violated, yet `parse` returns the error of the
element-array extraction. -/
theorem claim_C4_counterexample :
    c4_json.get_str "resourceType" = some "StructureDefinition" ∧
    (c4_json.get_str "url").isSome = true ∧
    (c4_json.get_str "name").isSome = true ∧
    c4_json.get_str "kind" = some "resource" ∧
    structure_kind_of_string "resource" = some StructureKind.resource ∧
    (c4_json.get "snapshot").isSome = true ∧
    (StructureDefinitionParser.parse ⟨[]⟩ c4_json).1 =
      .error (.parser "Missing element array") := by
  exact ⟨rfl, rfl, rfl, rfl, rfl, rfl, rfl⟩

/-- C4 amended: `parse` succeeds exactly when the four listed
validations hold *and* the chosen element container holds a parseable
`element` array; the checks fire in source order (each conjunct below
pins the error produced by the first violated check), and when both
containers are present the snapshot supplies the elements and the result
is not marked differential. -/
theorem claim_C4 :
    (∀ (j : Json) (p : StructureDefinitionParser),
        ((StructureDefinitionParser.parse p j).1.isOk = true) ↔
          parse_success_condition j) ∧
    (∀ (j : Json) (p : StructureDefinitionParser),
        j.get_str "resourceType" = none →
        (StructureDefinitionParser.parse p j).1 =
          .error (.parser "Missing resourceType")) ∧
    (∀ (j : Json) (p : StructureDefinitionParser) (rt : String),
        j.get_str "resourceType" = some rt → rt ≠ "StructureDefinition" →
        (StructureDefinitionParser.parse p j).1 =
          .error (.parser ("Expected StructureDefinition, got " ++ rt))) ∧
    (∀ (j : Json) (p : StructureDefinitionParser),
        j.get_str "resourceType" = some "StructureDefinition" →
        j.get_str "url" = none →
        (StructureDefinitionParser.parse p j).1 =
          .error (.parser "Missing url")) ∧
    (∀ (j : Json) (p : StructureDefinitionParser) (url : String),
        j.get_str "resourceType" = some "StructureDefinition" →
        j.get_str "url" = some url → j.get_str "name" = none →
        (StructureDefinitionParser.parse p j).1 =
          .error (.parser "Missing name")) ∧
    (∀ (j : Json) (p : StructureDefinitionParser) (url name : String),
        j.get_str "resourceType" = some "StructureDefinition" →
        j.get_str "url" = some url → j.get_str "name" = some name →
        j.get_str "kind" = none →
        (StructureDefinitionParser.parse p j).1 =
          .error (.parser "Missing kind")) ∧
    (∀ (j : Json) (p : StructureDefinitionParser) (url name k : String),
        j.get_str "resourceType" = some "StructureDefinition" →
        j.get_str "url" = some url → j.get_str "name" = some name →
        j.get_str "kind" = some k → structure_kind_of_string k = none →
        (StructureDefinitionParser.parse p j).1 =
          .error (.parser ("Unknown kind: " ++ k))) ∧
    (∀ (j : Json) (p : StructureDefinitionParser) (url name k : String)
        (sk : StructureKind),
        j.get_str "resourceType" = some "StructureDefinition" →
        j.get_str "url" = some url → j.get_str "name" = some name →
        j.get_str "kind" = some k → structure_kind_of_string k = some sk →
        j.get "snapshot" = none → j.get "differential" = none →
        (StructureDefinitionParser.parse p j).1 =
          .error (.parser "Missing both snapshot and differential")) ∧
    (∀ (j : Json) (p : StructureDefinitionParser) (url name k : String)
        (sk : StructureKind) (snap : Json) (es : List ElementDefinition),
        j.get_str "resourceType" = some "StructureDefinition" →
        j.get_str "url" = some url → j.get_str "name" = some name →
        j.get_str "kind" = some k → structure_kind_of_string k = some sk →
        j.get "snapshot" = some snap →
        parse_element_definitions snap = .ok es →
        ∃ ps, (StructureDefinitionParser.parse p j).1 = .ok ps ∧
          ps.elements = es ∧ ps.differential = false) :=
  ⟨parse_isOk_iff, parse_err_rt_missing, parse_err_rt_wrong, parse_err_url,
    parse_err_name, parse_err_kind_missing, parse_err_kind_unknown,
    parse_err_no_container, parse_snapshot_wins⟩

/-- Witness for C4: on the document with both containers, parse succeeds
with the snapshot's single root element and `differential = false`. -/
theorem claim_C4_witness :
    ∃ ps, (StructureDefinitionParser.parse ⟨[]⟩ c4_both_json).1 = .ok ps ∧
      ps.elements = [⟨"T", none, none, 0, .finite 1, [], none, []⟩] ∧
      ps.differential = false :=
  claim_C4.2.2.2.2.2.2.2.2 c4_both_json ⟨[]⟩ "http://example.com/T" "T"
    "resource" StructureKind.resource
    (.obj [("element", .arr [.obj [("path", .str "T")]])])
    [⟨"T", none, none, 0, .finite 1, [], none, []⟩]
    rfl rfl rfl rfl rfl rfl rfl

/-- C10: parse is atomic with respect to the parser's cache: an error
leaves the cache untouched, and success inserts exactly the parsed
structure under its url (overwriting any previous entry). -/
theorem claim_C10 :
    ∀ (j : Json) (p : StructureDefinitionParser),
      ((StructureDefinitionParser.parse p j).1.isOk = false →
        (StructureDefinitionParser.parse p j).2 = p) ∧
      (∀ ps, (StructureDefinitionParser.parse p j).1 = .ok ps →
        (StructureDefinitionParser.parse p j).2 =
          ⟨cache_insert p.cache ps.url ps⟩) := by
  intro j p
  unfold StructureDefinitionParser.parse
  cases h1 : (j.get "resourceType").bind Json.as_str with
  | none => exact ⟨fun _ => rfl, fun ps h => by cases h⟩
  | some rt =>
    simp only []
    by_cases hrt : rt = "StructureDefinition"
    · subst hrt
      have hne : ¬(("StructureDefinition" : String) ≠ "StructureDefinition") :=
        by simp
      rw [if_neg hne]
      cases h2 : (j.get "url").bind Json.as_str with
      | none => exact ⟨fun _ => rfl, fun ps h => by cases h⟩
      | some url =>
        simp only []
        cases h3 : (j.get "name").bind Json.as_str with
        | none => exact ⟨fun _ => rfl, fun ps h => by cases h⟩
        | some name =>
          simp only []
          cases h4 : (j.get "kind").bind Json.as_str with
          | none => exact ⟨fun _ => rfl, fun ps h => by cases h⟩
          | some kind =>
            simp only []
            cases h5 : structure_kind_of_string kind with
            | none => exact ⟨fun _ => rfl, fun ps h => by cases h⟩
            | some sk =>
              simp only []
              cases h6 : j.get "snapshot" with
              | some snap =>
                simp only []
                cases h7 : parse_element_definitions snap with
                | error e =>
                  rw [except_map_error]
                  exact ⟨fun _ => rfl, fun ps h => by cases h⟩
                | ok es =>
                  rw [except_map_ok]
                  simp only []
                  refine ⟨fun hok => ?_, fun ps h => ?_⟩
                  · exact absurd hok (by simp [except_isOk_ok])
                  · injection h with h'
                    subst h'
                    rfl
              | none =>
                simp only []
                cases h7 : j.get "differential" with
                | none => exact ⟨fun _ => rfl, fun ps h => by cases h⟩
                | some diff =>
                  simp only []
                  cases h8 : parse_element_definitions diff with
                  | error e =>
                    rw [except_map_error]
                    exact ⟨fun _ => rfl, fun ps h => by cases h⟩
                  | ok es =>
                    rw [except_map_ok]
                    simp only []
                    refine ⟨fun hok => ?_, fun ps h => ?_⟩
                    · exact absurd hok (by simp [except_isOk_ok])
                    · injection h with h'
                      subst h'
                      rfl
    · rw [if_pos hrt]
      exact ⟨fun _ => rfl, fun ps h => by cases h⟩

/-- Witness for C10: a failing parse (`c4_json`) leaves a non-empty cache
unchanged, and a succeeding parse (`c4_both_json`) inserts the parsed
structure under its url. -/
theorem claim_C10_witness :
    (StructureDefinitionParser.parse ⟨[]⟩ c4_json).2 =
      (⟨[]⟩ : StructureDefinitionParser) ∧
    (StructureDefinitionParser.parse ⟨[]⟩ c4_both_json).2 =
      ⟨cache_insert [] "http://example.com/T"
        ⟨"http://example.com/T", "T", StructureKind.resource, none, false,
          [⟨"T", none, none, 0, .finite 1, [], none, []⟩], false⟩⟩ := by
  refine ⟨(claim_C10 c4_json ⟨[]⟩).1 (by rfl), ?_⟩
  exact (claim_C10 c4_both_json ⟨[]⟩).2
    ⟨"http://example.com/T", "T", StructureKind.resource, none, false,
      [⟨"T", none, none, 0, .finite 1, [], none, []⟩], false⟩ (by rfl)

/-- C5 refuted as stated: parsing `c5_json` succeeds and
`to_resource_type` yields a property whose cardinality is
`min = 2, max = some 1`, so `min ≤ max` fails on a pipeline-produced
`CardinalityRange`. -/
theorem claim_C5_counterexample :
    ((StructureDefinitionParser.parse ⟨[]⟩ c5_json).1.map
        (fun ps => ps.elements.map (fun e => (e.min, e.max)))) =
      .ok [(0, Cardinality.finite 1), (2, Cardinality.finite 1)] ∧
    ((StructureDefinitionParser.parse ⟨[]⟩ c5_json).1.map
        (fun ps => (to_resource_type ps).map
          (fun rt => rt.properties.map
            (fun pr => (pr.cardinality.min, pr.cardinality.max))))) =
      .ok (.ok [(2, some 1)]) ∧
    ¬(2 ≤ 1) := by
  refine ⟨rfl, rfl, by decide⟩

/-- C8: `resolve_type` never propagates a client failure as an error; a
cache hit returns the cached document for every client (so the client is
not consulted); a successful miss returns the resolved document and
stores it in the cache; a failed miss returns `Ok(None)` with the cache
unchanged. -/
theorem claim_C8 :
    ∀ (client : String → Except String Json) (st : SchemaResolver)
      (url : String),
      ((resolve_type client st url).1.isOk = true) ∧
      (∀ v, st.cache.lookup url = some v →
        ∀ client2, resolve_type client2 st url = (.ok (some v), st)) ∧
      (st.cache.lookup url = none → ∀ jdoc, client url = .ok jdoc →
        resolve_type client st url =
          (.ok (some jdoc), { st with cache := imInsert st.cache url jdoc })) ∧
      (st.cache.lookup url = none → ∀ e, client url = .error e →
        resolve_type client st url = (.ok none, st)) := by
  intro client st url
  refine ⟨?_, ?_, ?_, ?_⟩
  · unfold resolve_type
    cases h : st.cache.lookup url with
    | some v => rfl
    | none =>
      simp only []
      cases hc : client url with
      | ok jdoc => rfl
      | error e => rfl
  · intro v hv client2
    unfold resolve_type
    rw [hv]
  · intro h jdoc hj
    unfold resolve_type
    rw [h]
    simp only []
    rw [hj]
  · intro h e he
    unfold resolve_type
    rw [h]
    simp only []
    rw [he]

/-- Witness for C8: a hit, a successful miss and a failed miss on
concrete inputs. -/
theorem claim_C8_witness :
    resolve_type c8_client c8_state "http://x/cached" =
      (.ok (some (.str "c")), c8_state) ∧
    resolve_type c8_client c8_state "http://x/ok" =
      (.ok (some (.str "doc")),
        { c8_state with
            cache := imInsert c8_state.cache "http://x/ok" (.str "doc") }) ∧
    resolve_type c8_client c8_state "http://x/missing" =
      (.ok none, c8_state) := by
  refine ⟨(claim_C8 c8_client c8_state "http://x/cached").2.1
      (.str "c") (by rfl) c8_client, ?_, ?_⟩
  · exact (claim_C8 c8_client c8_state "http://x/ok").2.2.1 (by rfl)
      (.str "doc") (by rfl)
  · exact (claim_C8 c8_client c8_state "http://x/missing").2.2.2 (by rfl)
      "not found" (by rfl)

/-! ## Association-list map lemmas -/
theorem lookup_append {α : Type} (l1 l2 : List (String × α)) (a : String) :
    (l1 ++ l2).lookup a =
      match l1.lookup a with
      | some v => some v
      | none => l2.lookup a := by
  induction l1 with
  | nil => rfl
  | cons hd tl ih =>
    rcases hd with ⟨k, v⟩
    by_cases h : (a == k) = true
    · simp [List.lookup, h]
    · simp only [List.cons_append, List.lookup, Bool.not_eq_true] at h ⊢
      rw [h]
      exact ih

theorem lookup_none_of_any_false {α : Type} (m : List (String × α))
    (k : String) (h : m.any (fun p => p.1 == k) = false) :
    m.lookup k = none := by
  induction m with
  | nil => rfl
  | cons hd tl ih =>
    simp only [List.any_cons, Bool.or_eq_false_iff] at h
    simp only [List.lookup]
    have hk : (k == hd.1) = false := by
      rw [Bool.eq_false_iff]
      intro hb
      rw [beq_iff_eq.mp hb] at h
      simp at h
    rcases hd with ⟨k', v'⟩
    simp only at hk
    rw [hk]
    exact ih h.2

theorem not_mem_keys_of_any_false {α : Type} (m : List (String × α))
    (k : String) (h : m.any (fun p => p.1 == k) = false) :
    k ∉ m.map Prod.fst := by
  intro hmem
  rcases List.mem_map.mp hmem with ⟨p, hp, he⟩
  have : m.any (fun p => p.1 == k) = true :=
    List.any_eq_true.mpr ⟨p, hp, beq_iff_eq.mpr he⟩
  rw [h] at this
  cases this

theorem lookup_cons {α : Type} (k' : String) (v' : α) (tl : List (String × α))
    (n : String) :
    ((k', v') :: tl).lookup n =
      if (n == k') = true then some v' else tl.lookup n := by
  simp only [List.lookup]
  by_cases h : (n == k') = true
  · simp [h]
  · simp [Bool.eq_false_iff.mpr h]

theorem lookup_replace_self {α : Type} (m : List (String × α)) (k : String)
    (v : α) (hany : m.any (fun p => p.1 == k) = true) :
    (m.map (fun p => if p.1 == k then (k, v) else p)).lookup k = some v := by
  induction m with
  | nil => simp at hany
  | cons hd tl ih =>
    rcases hd with ⟨k', v'⟩
    simp only [List.map_cons]
    by_cases hk : (k' == k) = true
    · rw [if_pos hk, lookup_cons]
      simp
    · rw [if_neg hk, lookup_cons]
      have hkk : ¬((k == k') = true) := by
        intro hb
        rw [beq_iff_eq.mp hb, beq_self_eq_true] at hk
        exact hk rfl
      rw [if_neg hkk]
      simp only [List.any_cons, hk, Bool.false_or] at hany
      exact ih hany

theorem lookup_replace_ne {α : Type} (m : List (String × α)) (k n : String)
    (v : α) (h : n ≠ k) :
    (m.map (fun p => if p.1 == k then (k, v) else p)).lookup n =
      m.lookup n := by
  induction m with
  | nil => rfl
  | cons hd tl ih =>
    rcases hd with ⟨k', v'⟩
    simp only [List.map_cons]
    by_cases hk : (k' == k) = true
    · have hk' : k' = k := beq_iff_eq.mp hk
      subst hk'
      rw [if_pos hk, lookup_cons, lookup_cons,
        if_neg (by simp [beq_eq_false_iff_ne.mpr h]),
        if_neg (by simp [beq_eq_false_iff_ne.mpr h])]
      exact ih
    · rw [if_neg hk, lookup_cons, lookup_cons]
      by_cases hn : (n == k') = true
      · rw [if_pos hn, if_pos hn]
      · rw [if_neg hn, if_neg hn]
        exact ih

theorem imInsert_lookup_self {α : Type} (m : List (String × α)) (k : String)
    (v : α) : (imInsert m k v).lookup k = some v := by
  unfold imInsert
  by_cases hany : m.any (fun p => p.1 == k) = true
  · rw [if_pos hany]
    exact lookup_replace_self m k v hany
  · rw [if_neg hany, lookup_append,
      lookup_none_of_any_false m k (Bool.eq_false_iff.mpr hany)]
    simp [lookup_cons]

theorem imInsert_lookup_ne {α : Type} (m : List (String × α)) (k : String)
    (v : α) (n : String) (h : n ≠ k) :
    (imInsert m k v).lookup n = m.lookup n := by
  unfold imInsert
  by_cases hany : m.any (fun p => p.1 == k) = true
  · rw [if_pos hany]
    exact lookup_replace_ne m k n v h
  · rw [if_neg hany, lookup_append]
    have hsing : ([(k, v)] : List (String × α)).lookup n = none := by
      rw [lookup_cons, if_neg (by simp [beq_eq_false_iff_ne.mpr h])]
      rfl
    cases hm : m.lookup n with
    | some w => rfl
    | none => simpa [hm] using hsing

theorem imInsert_keys_replace {α : Type} (m : List (String × α)) (k : String)
    (v : α) (hany : m.any (fun p => p.1 == k) = true) :
    (imInsert m k v).map Prod.fst = m.map Prod.fst := by
  unfold imInsert
  rw [if_pos hany, List.map_map]
  apply List.map_congr_left
  intro p _
  by_cases hp : (p.1 == k) = true
  · simp only [Function.comp_apply, if_pos hp]
    exact (beq_iff_eq.mp hp).symm
  · simp only [Function.comp_apply, if_neg hp]

theorem imInsert_keys_append {α : Type} (m : List (String × α)) (k : String)
    (v : α) (hany : m.any (fun p => p.1 == k) = false) :
    (imInsert m k v).map Prod.fst = m.map Prod.fst ++ [k] := by
  unfold imInsert
  rw [if_neg (by rw [hany]; exact Bool.false_ne_true)]
  simp

theorem imInsert_keys_nodup {α : Type} (m : List (String × α)) (k : String)
    (v : α) (h : (m.map Prod.fst).Nodup) :
    ((imInsert m k v).map Prod.fst).Nodup := by
  by_cases hany : m.any (fun p => p.1 == k) = true
  · rw [imInsert_keys_replace m k v hany]
    exact h
  · rw [imInsert_keys_append m k v (Bool.eq_false_iff.mpr hany)]
    rw [List.nodup_append]
    refine ⟨h, by simp, ?_⟩
    intro a ha hb
    have ha' : a = k := by simpa using hb
    subst ha'
    exact not_mem_keys_of_any_false m a (Bool.eq_false_iff.mpr hany) ha

theorem imInsert_mem_keys {α : Type} (m : List (String × α)) (k : String)
    (v : α) (n : String) (h : n ∈ (imInsert m k v).map Prod.fst) :
    n = k ∨ n ∈ m.map Prod.fst := by
  by_cases hany : m.any (fun p => p.1 == k) = true
  · rw [imInsert_keys_replace m k v hany] at h
    exact Or.inr h
  · rw [imInsert_keys_append m k v (Bool.eq_false_iff.mpr hany)] at h
    rcases List.mem_append.mp h with h' | h'
    · exact Or.inr h'
    · exact Or.inl (by simpa using h')

/-- Generic fold invariant: a projection every step preserves is
preserved by the whole fold. -/
theorem foldl_proj_eq {α β γ : Type} (f : α → β → α) (proj : α → γ)
    (h : ∀ a b, proj (f a b) = proj a) :
    ∀ (l : List β) (a : α), proj (l.foldl f a) = proj a
  | [], _ => rfl
  | b :: l, a => by
    rw [List.foldl_cons, foldl_proj_eq f proj h l (f a b), h]

/-! ## State independence of parsing outcomes -/
/-- `parse` never reads the cache, so its returned value is independent
of the parser state. -/
theorem parse_fst_indep (j : Json) (p q : StructureDefinitionParser) :
    (StructureDefinitionParser.parse p j).1 =
      (StructureDefinitionParser.parse q j).1 := by
  unfold StructureDefinitionParser.parse
  cases h1 : (j.get "resourceType").bind Json.as_str with
  | none => rfl
  | some rt =>
    simp only []
    by_cases hrt : rt = "StructureDefinition"
    · subst hrt
      have hne : ¬(("StructureDefinition" : String) ≠ "StructureDefinition") :=
        by simp
      rw [if_neg hne]
      cases h2 : (j.get "url").bind Json.as_str with
      | none => rfl
      | some url =>
        simp only []
        cases h3 : (j.get "name").bind Json.as_str with
        | none => rfl
        | some name =>
          simp only []
          cases h4 : (j.get "kind").bind Json.as_str with
          | none => rfl
          | some kind =>
            simp only []
            cases h5 : structure_kind_of_string kind with
            | none => rfl
            | some sk =>
              simp only []
              cases h6 : j.get "snapshot" with
              | some snap =>
                simp only []
                cases h7 : parse_element_definitions snap with
                | error e => rfl
                | ok es => rfl
              | none =>
                simp only []
                cases h7 : j.get "differential" with
                | none => rfl
                | some diff =>
                  simp only []
                  cases h8 : parse_element_definitions diff with
                  | error e => rfl
                  | ok es => rfl
    · rw [if_pos hrt, if_pos hrt]

theorem process_primitive_fst (p : StructureDefinitionParser) (sd : Json) :
    (process_primitive p sd).1 =
      match (StructureDefinitionParser.parse p sd).1 with
      | .error e => .error e
      | .ok parsed => primitive_of_parsed parsed := by
  unfold process_primitive
  rcases h : StructureDefinitionParser.parse p sd with ⟨fst, p'⟩
  cases fst with
  | error e => rfl
  | ok parsed => rfl

theorem process_datatype_fst (p : StructureDefinitionParser) (sd : Json) :
    (process_datatype p sd).1 =
      match (StructureDefinitionParser.parse p sd).1 with
      | .error e => .error e
      | .ok parsed => to_datatype parsed := by
  unfold process_datatype
  rcases h : StructureDefinitionParser.parse p sd with ⟨fst, p'⟩
  cases fst with
  | error e => rfl
  | ok parsed => rfl

theorem process_resource_fst (p : StructureDefinitionParser) (sd : Json) :
    (process_resource p sd).1 =
      match (StructureDefinitionParser.parse p sd).1 with
      | .error e => .error e
      | .ok parsed => to_resource_type parsed := by
  unfold process_resource
  rcases h : StructureDefinitionParser.parse p sd with ⟨fst, p'⟩
  cases fst with
  | error e => rfl
  | ok parsed => rfl

theorem process_primitive_fst_indep (p q : StructureDefinitionParser)
    (sd : Json) :
    (process_primitive p sd).1 = (process_primitive q sd).1 := by
  rw [process_primitive_fst, process_primitive_fst, parse_fst_indep sd p q]

theorem process_datatype_fst_indep (p q : StructureDefinitionParser)
    (sd : Json) :
    (process_datatype p sd).1 = (process_datatype q sd).1 := by
  rw [process_datatype_fst, process_datatype_fst, parse_fst_indep sd p q]

theorem process_resource_fst_indep (p q : StructureDefinitionParser)
    (sd : Json) :
    (process_resource p sd).1 = (process_resource q sd).1 := by
  rw [process_resource_fst, process_resource_fst, parse_fst_indep sd p q]

/-! ## Step projection lemmas for the builder folds -/
theorem prim_step_datatypes (acc : TypeGraph × StructureDefinitionParser)
    (nv : String × Json) : (prim_step acc nv).1.datatypes = acc.1.datatypes := by
  unfold prim_step
  rcases h : process_primitive acc.2 nv.2 with ⟨res, p'⟩
  cases res <;> rfl

theorem prim_step_resources (acc : TypeGraph × StructureDefinitionParser)
    (nv : String × Json) : (prim_step acc nv).1.resources = acc.1.resources := by
  unfold prim_step
  rcases h : process_primitive acc.2 nv.2 with ⟨res, p'⟩
  cases res <;> rfl

theorem prim_step_profiles (acc : TypeGraph × StructureDefinitionParser)
    (nv : String × Json) : (prim_step acc nv).1.profiles = acc.1.profiles := by
  unfold prim_step
  rcases h : process_primitive acc.2 nv.2 with ⟨res, p'⟩
  cases res <;> rfl

theorem dt_step_primitives (acc : TypeGraph × StructureDefinitionParser)
    (nv : String × Json) : (dt_step acc nv).1.primitives = acc.1.primitives := by
  unfold dt_step
  rcases h : process_datatype acc.2 nv.2 with ⟨res, p'⟩
  cases res <;> rfl

theorem dt_step_resources (acc : TypeGraph × StructureDefinitionParser)
    (nv : String × Json) : (dt_step acc nv).1.resources = acc.1.resources := by
  unfold dt_step
  rcases h : process_datatype acc.2 nv.2 with ⟨res, p'⟩
  cases res <;> rfl

theorem dt_step_profiles (acc : TypeGraph × StructureDefinitionParser)
    (nv : String × Json) : (dt_step acc nv).1.profiles = acc.1.profiles := by
  unfold dt_step
  rcases h : process_datatype acc.2 nv.2 with ⟨res, p'⟩
  cases res <;> rfl

theorem res_step_primitives (acc : TypeGraph × StructureDefinitionParser)
    (nv : String × Json) : (res_step acc nv).1.primitives = acc.1.primitives := by
  unfold res_step
  rcases h : process_resource acc.2 nv.2 with ⟨res, p'⟩
  cases res <;> rfl

theorem res_step_datatypes (acc : TypeGraph × StructureDefinitionParser)
    (nv : String × Json) : (res_step acc nv).1.datatypes = acc.1.datatypes := by
  unfold res_step
  rcases h : process_resource acc.2 nv.2 with ⟨res, p'⟩
  cases res <;> rfl

theorem res_step_profiles (acc : TypeGraph × StructureDefinitionParser)
    (nv : String × Json) : (res_step acc nv).1.profiles = acc.1.profiles := by
  unfold res_step
  rcases h : process_resource acc.2 nv.2 with ⟨res, p'⟩
  cases res <;> rfl

/-! ## Fold lemmas for the builder stages -/
theorem foldl_inv {α β : Type} (f : α → β → α) (inv : α → Prop)
    (h : ∀ a b, inv a → inv (f a b)) :
    ∀ (l : List β) (a : α), inv a → inv (l.foldl f a)
  | [], _, ha => ha
  | b :: l, a, ha => by
    rw [List.foldl_cons]
    exact foldl_inv f inv h l (f a b) (h a b ha)

theorem prim_step_lookup_ne (acc : TypeGraph × StructureDefinitionParser)
    (nv : String × Json) (n : String) (h : nv.1 ≠ n) :
    (prim_step acc nv).1.primitives.lookup n =
      acc.1.primitives.lookup n := by
  unfold prim_step
  rcases hp : process_primitive acc.2 nv.2 with ⟨res, p'⟩
  cases res with
  | ok prim =>
    show (acc.1.add_primitive nv.1 prim).primitives.lookup n = _
    unfold TypeGraph.add_primitive
    exact imInsert_lookup_ne _ _ _ _ (Ne.symm h)
  | error e => rfl

theorem dt_step_lookup_ne (acc : TypeGraph × StructureDefinitionParser)
    (nv : String × Json) (n : String) (h : nv.1 ≠ n) :
    (dt_step acc nv).1.datatypes.lookup n = acc.1.datatypes.lookup n := by
  unfold dt_step
  rcases hp : process_datatype acc.2 nv.2 with ⟨res, p'⟩
  cases res with
  | ok dt =>
    show (acc.1.add_datatype nv.1 dt).datatypes.lookup n = _
    unfold TypeGraph.add_datatype
    exact imInsert_lookup_ne _ _ _ _ (Ne.symm h)
  | error e => rfl

theorem res_step_lookup_ne (acc : TypeGraph × StructureDefinitionParser)
    (nv : String × Json) (n : String) (h : nv.1 ≠ n) :
    (res_step acc nv).1.resources.lookup n = acc.1.resources.lookup n := by
  unfold res_step
  rcases hp : process_resource acc.2 nv.2 with ⟨res, p'⟩
  cases res with
  | ok rt =>
    show (acc.1.add_resource nv.1 rt).resources.lookup n = _
    unfold TypeGraph.add_resource
    exact imInsert_lookup_ne _ _ _ _ (Ne.symm h)
  | error e => rfl

theorem prim_fold_preserve :
    ∀ (bucket : List (String × Json))
      (acc : TypeGraph × StructureDefinitionParser) (n : String),
      (∀ nv ∈ bucket, nv.1 ≠ n) →
      ((bucket.foldl prim_step acc).1).primitives.lookup n =
        acc.1.primitives.lookup n
  | [], _, _, _ => rfl
  | hd :: rest, acc, n, h => by
    rw [List.foldl_cons,
      prim_fold_preserve rest (prim_step acc hd) n
        (fun nv hnv => h nv (List.mem_cons_of_mem hd hnv)),
      prim_step_lookup_ne acc hd n (h hd (List.mem_cons_self hd rest))]

theorem dt_fold_preserve :
    ∀ (bucket : List (String × Json))
      (acc : TypeGraph × StructureDefinitionParser) (n : String),
      (∀ nv ∈ bucket, nv.1 ≠ n) →
      ((bucket.foldl dt_step acc).1).datatypes.lookup n =
        acc.1.datatypes.lookup n
  | [], _, _, _ => rfl
  | hd :: rest, acc, n, h => by
    rw [List.foldl_cons,
      dt_fold_preserve rest (dt_step acc hd) n
        (fun nv hnv => h nv (List.mem_cons_of_mem hd hnv)),
      dt_step_lookup_ne acc hd n (h hd (List.mem_cons_self hd rest))]

theorem res_fold_preserve :
    ∀ (bucket : List (String × Json))
      (acc : TypeGraph × StructureDefinitionParser) (n : String),
      (∀ nv ∈ bucket, nv.1 ≠ n) →
      ((bucket.foldl res_step acc).1).resources.lookup n =
        acc.1.resources.lookup n
  | [], _, _, _ => rfl
  | hd :: rest, acc, n, h => by
    rw [List.foldl_cons,
      res_fold_preserve rest (res_step acc hd) n
        (fun nv hnv => h nv (List.mem_cons_of_mem hd hnv)),
      res_step_lookup_ne acc hd n (h hd (List.mem_cons_self hd rest))]

theorem prim_fold_found :
    ∀ (bucket : List (String × Json))
      (acc : TypeGraph × StructureDefinitionParser) (n : String) (sd : Json)
      (q : StructureDefinitionParser),
      (n, sd) ∈ bucket → (bucket.map Prod.fst).Nodup →
      (∀ prim, (process_primitive q sd).1 = .ok prim →
        ((bucket.foldl prim_step acc).1).primitives.lookup n = some prim) ∧
      ((process_primitive q sd).1.isOk = false →
        ((bucket.foldl prim_step acc).1).primitives.lookup n =
          acc.1.primitives.lookup n)
  | [], _, _, _, _, hmem, _ => absurd hmem (List.not_mem_nil _)
  | hd :: rest, acc, n, sd, q, hmem, hnd => by
    rcases hd with ⟨k, sd'⟩
    rw [List.map_cons, List.nodup_cons] at hnd
    rcases hnd with ⟨hknot, hndr⟩
    rw [List.foldl_cons]
    rcases List.mem_cons.mp hmem with heq | hmem'
    · have hn : n = k := congrArg Prod.fst heq
      have hsd : sd = sd' := congrArg Prod.snd heq
      subst hn
      subst hsd
      have hpre : ∀ nv ∈ rest, nv.1 ≠ n := by
        intro nv hnv he
        exact hknot (he ▸ List.mem_map.mpr ⟨nv, hnv, rfl⟩)
      rw [prim_fold_preserve rest _ n hpre]
      unfold prim_step
      rcases hps : process_primitive acc.2 sd with ⟨res, p'⟩
      have hq : (process_primitive q sd).1 = res := by
        rw [process_primitive_fst_indep q acc.2 sd, hps]
      cases res with
      | ok prim' =>
        constructor
        · intro prim hprim
          rw [hq] at hprim
          injection hprim with he
          subst he
          show (acc.1.add_primitive n prim').primitives.lookup n = _
          unfold TypeGraph.add_primitive
          exact imInsert_lookup_self _ _ _
        · intro hfail
          rw [hq] at hfail
          exact absurd hfail (by simp [except_isOk_ok])
      | error e =>
        constructor
        · intro prim hprim
          rw [hq] at hprim
          cases hprim
        · intro _
          rfl
    · have hn_ne : k ≠ n := by
        intro he
        exact hknot (he ▸ List.mem_map.mpr ⟨(n, sd), hmem', rfl⟩)
      have ih := prim_fold_found rest (prim_step acc (k, sd')) n sd q hmem' hndr
      refine ⟨ih.1, fun hfail => ?_⟩
      rw [ih.2 hfail, prim_step_lookup_ne acc (k, sd') n hn_ne]

theorem dt_fold_found :
    ∀ (bucket : List (String × Json))
      (acc : TypeGraph × StructureDefinitionParser) (n : String) (sd : Json)
      (q : StructureDefinitionParser),
      (n, sd) ∈ bucket → (bucket.map Prod.fst).Nodup →
      (∀ dt, (process_datatype q sd).1 = .ok dt →
        ((bucket.foldl dt_step acc).1).datatypes.lookup n = some dt) ∧
      ((process_datatype q sd).1.isOk = false →
        ((bucket.foldl dt_step acc).1).datatypes.lookup n =
          acc.1.datatypes.lookup n)
  | [], _, _, _, _, hmem, _ => absurd hmem (List.not_mem_nil _)
  | hd :: rest, acc, n, sd, q, hmem, hnd => by
    rcases hd with ⟨k, sd'⟩
    rw [List.map_cons, List.nodup_cons] at hnd
    rcases hnd with ⟨hknot, hndr⟩
    rw [List.foldl_cons]
    rcases List.mem_cons.mp hmem with heq | hmem'
    · have hn : n = k := congrArg Prod.fst heq
      have hsd : sd = sd' := congrArg Prod.snd heq
      subst hn
      subst hsd
      have hpre : ∀ nv ∈ rest, nv.1 ≠ n := by
        intro nv hnv he
        exact hknot (he ▸ List.mem_map.mpr ⟨nv, hnv, rfl⟩)
      rw [dt_fold_preserve rest _ n hpre]
      unfold dt_step
      rcases hps : process_datatype acc.2 sd with ⟨res, p'⟩
      have hq : (process_datatype q sd).1 = res := by
        rw [process_datatype_fst_indep q acc.2 sd, hps]
      cases res with
      | ok dt' =>
        constructor
        · intro dt hdt
          rw [hq] at hdt
          injection hdt with he
          subst he
          show (acc.1.add_datatype n dt').datatypes.lookup n = _
          unfold TypeGraph.add_datatype
          exact imInsert_lookup_self _ _ _
        · intro hfail
          rw [hq] at hfail
          exact absurd hfail (by simp [except_isOk_ok])
      | error e =>
        constructor
        · intro dt hdt
          rw [hq] at hdt
          cases hdt
        · intro _
          rfl
    · have hn_ne : k ≠ n := by
        intro he
        exact hknot (he ▸ List.mem_map.mpr ⟨(n, sd), hmem', rfl⟩)
      have ih := dt_fold_found rest (dt_step acc (k, sd')) n sd q hmem' hndr
      refine ⟨ih.1, fun hfail => ?_⟩
      rw [ih.2 hfail, dt_step_lookup_ne acc (k, sd') n hn_ne]

theorem res_fold_found :
    ∀ (bucket : List (String × Json))
      (acc : TypeGraph × StructureDefinitionParser) (n : String) (sd : Json)
      (q : StructureDefinitionParser),
      (n, sd) ∈ bucket → (bucket.map Prod.fst).Nodup →
      (∀ rt, (process_resource q sd).1 = .ok rt →
        ((bucket.foldl res_step acc).1).resources.lookup n = some rt) ∧
      ((process_resource q sd).1.isOk = false →
        ((bucket.foldl res_step acc).1).resources.lookup n =
          acc.1.resources.lookup n)
  | [], _, _, _, _, hmem, _ => absurd hmem (List.not_mem_nil _)
  | hd :: rest, acc, n, sd, q, hmem, hnd => by
    rcases hd with ⟨k, sd'⟩
    rw [List.map_cons, List.nodup_cons] at hnd
    rcases hnd with ⟨hknot, hndr⟩
    rw [List.foldl_cons]
    rcases List.mem_cons.mp hmem with heq | hmem'
    · have hn : n = k := congrArg Prod.fst heq
      have hsd : sd = sd' := congrArg Prod.snd heq
      subst hn
      subst hsd
      have hpre : ∀ nv ∈ rest, nv.1 ≠ n := by
        intro nv hnv he
        exact hknot (he ▸ List.mem_map.mpr ⟨nv, hnv, rfl⟩)
      rw [res_fold_preserve rest _ n hpre]
      unfold res_step
      rcases hps : process_resource acc.2 sd with ⟨res, p'⟩
      have hq : (process_resource q sd).1 = res := by
        rw [process_resource_fst_indep q acc.2 sd, hps]
      cases res with
      | ok rt' =>
        constructor
        · intro rt hrt
          rw [hq] at hrt
          injection hrt with he
          subst he
          show (acc.1.add_resource n rt').resources.lookup n = _
          unfold TypeGraph.add_resource
          exact imInsert_lookup_self _ _ _
        · intro hfail
          rw [hq] at hfail
          exact absurd hfail (by simp [except_isOk_ok])
      | error e =>
        constructor
        · intro rt hrt
          rw [hq] at hrt
          cases hrt
        · intro _
          rfl
    · have hn_ne : k ≠ n := by
        intro he
        exact hknot (he ▸ List.mem_map.mpr ⟨(n, sd), hmem', rfl⟩)
      have ih := res_fold_found rest (res_step acc (k, sd')) n sd q hmem' hndr
      refine ⟨ih.1, fun hfail => ?_⟩
      rw [ih.2 hfail, res_step_lookup_ne acc (k, sd') n hn_ne]

/-! ## Keys of the built maps come from the buckets -/
theorem prim_step_lookup_cases (acc : TypeGraph × StructureDefinitionParser)
    (nv : String × Json) (n : String) :
    (prim_step acc nv).1.primitives.lookup n =
      acc.1.primitives.lookup n ∨ n = nv.1 := by
  by_cases h : nv.1 = n
  · exact Or.inr h.symm
  · exact Or.inl (prim_step_lookup_ne acc nv n h)

theorem dt_step_lookup_cases (acc : TypeGraph × StructureDefinitionParser)
    (nv : String × Json) (n : String) :
    (dt_step acc nv).1.datatypes.lookup n =
      acc.1.datatypes.lookup n ∨ n = nv.1 := by
  by_cases h : nv.1 = n
  · exact Or.inr h.symm
  · exact Or.inl (dt_step_lookup_ne acc nv n h)

theorem res_step_lookup_cases (acc : TypeGraph × StructureDefinitionParser)
    (nv : String × Json) (n : String) :
    (res_step acc nv).1.resources.lookup n =
      acc.1.resources.lookup n ∨ n = nv.1 := by
  by_cases h : nv.1 = n
  · exact Or.inr h.symm
  · exact Or.inl (res_step_lookup_ne acc nv n h)

theorem prim_fold_keys :
    ∀ (bucket : List (String × Json))
      (acc : TypeGraph × StructureDefinitionParser) (n : String),
      ((bucket.foldl prim_step acc).1).primitives.lookup n ≠ none →
      n ∈ bucket.map Prod.fst ∨ acc.1.primitives.lookup n ≠ none
  | [], _, _, h => Or.inr h
  | hd :: rest, acc, n, h => by
    rw [List.foldl_cons] at h
    rcases prim_fold_keys rest (prim_step acc hd) n h with h' | h'
    · exact Or.inl (List.mem_cons_of_mem _ h')
    · rcases prim_step_lookup_cases acc hd n with hc | hc
      · exact Or.inr (hc ▸ h')
      · exact Or.inl (List.mem_cons.mpr (Or.inl (hc ▸ rfl)))

theorem dt_fold_keys :
    ∀ (bucket : List (String × Json))
      (acc : TypeGraph × StructureDefinitionParser) (n : String),
      ((bucket.foldl dt_step acc).1).datatypes.lookup n ≠ none →
      n ∈ bucket.map Prod.fst ∨ acc.1.datatypes.lookup n ≠ none
  | [], _, _, h => Or.inr h
  | hd :: rest, acc, n, h => by
    rw [List.foldl_cons] at h
    rcases dt_fold_keys rest (dt_step acc hd) n h with h' | h'
    · exact Or.inl (List.mem_cons_of_mem _ h')
    · rcases dt_step_lookup_cases acc hd n with hc | hc
      · exact Or.inr (hc ▸ h')
      · exact Or.inl (List.mem_cons.mpr (Or.inl (hc ▸ rfl)))

theorem res_fold_keys :
    ∀ (bucket : List (String × Json))
      (acc : TypeGraph × StructureDefinitionParser) (n : String),
      ((bucket.foldl res_step acc).1).resources.lookup n ≠ none →
      n ∈ bucket.map Prod.fst ∨ acc.1.resources.lookup n ≠ none
  | [], _, _, h => Or.inr h
  | hd :: rest, acc, n, h => by
    rw [List.foldl_cons] at h
    rcases res_fold_keys rest (res_step acc hd) n h with h' | h'
    · exact Or.inl (List.mem_cons_of_mem _ h')
    · rcases res_step_lookup_cases acc hd n with hc | hc
      · exact Or.inr (hc ▸ h')
      · exact Or.inl (List.mem_cons.mpr (Or.inl (hc ▸ rfl)))

/-! ## Categorize buckets have unique keys -/
theorem cat_step_nodup
    (acc : List (String × Json) × List (String × Json) × List (String × Json))
    (sd : Json)
    (h : (acc.1.map Prod.fst).Nodup ∧ (acc.2.1.map Prod.fst).Nodup ∧
      (acc.2.2.map Prod.fst).Nodup) :
    ((cat_step acc sd).1.map Prod.fst).Nodup ∧
      ((cat_step acc sd).2.1.map Prod.fst).Nodup ∧
      ((cat_step acc sd).2.2.map Prod.fst).Nodup := by
  rcases h with ⟨h1, h2, h3⟩
  unfold cat_step
  split
  · exact ⟨imInsert_keys_nodup _ _ _ h1, h2, h3⟩
  · exact ⟨h1, imInsert_keys_nodup _ _ _ h2, h3⟩
  · exact ⟨h1, h2, imInsert_keys_nodup _ _ _ h3⟩
  · exact ⟨h1, h2, h3⟩

theorem categorize_nodup (sds : List Json) :
    ((categorize_structures sds).1.map Prod.fst).Nodup ∧
      ((categorize_structures sds).2.1.map Prod.fst).Nodup ∧
      ((categorize_structures sds).2.2.map Prod.fst).Nodup := by
  unfold categorize_structures
  exact foldl_inv cat_step _ cat_step_nodup sds ([], [], [])
    ⟨List.nodup_nil, List.nodup_nil, List.nodup_nil⟩

/-! ## Search-parameter attachment acts entrywise on the resources -/
theorem lookup_map_attach (rs : List (String × ResourceType))
    (groups : List (String × List SearchParameter)) (n : String) :
    (rs.map (fun nr =>
      match groups.lookup nr.1 with
      | some params => (nr.1, { nr.2 with search_parameters := params })
      | none => nr)).lookup n =
      (rs.lookup n).map (fun r =>
        match groups.lookup n with
        | some params => { r with search_parameters := params }
        | none => r) := by
  induction rs with
  | nil => rfl
  | cons hd tl ih =>
    rcases hd with ⟨k, r⟩
    simp only [List.map_cons]
    by_cases hn : (n == k) = true
    · have hn' : n = k := beq_iff_eq.mp hn
      subst hn'
      cases hg : groups.lookup n with
      | some params =>
        simp only []
        rw [lookup_cons, lookup_cons, if_pos hn, if_pos hn]
        rfl
      | none =>
        simp only []
        rw [lookup_cons, lookup_cons, if_pos hn, if_pos hn]
        rfl
    · cases hg : groups.lookup k with
      | some params =>
        simp only []
        rw [lookup_cons, lookup_cons, if_neg hn, if_neg hn]
        exact ih
      | none =>
        simp only []
        rw [lookup_cons, lookup_cons, if_neg hn, if_neg hn]
        exact ih

theorem asp_resources_lookup (g : TypeGraph) (sps : List Json) (n : String) :
    (add_search_parameters g sps).resources.lookup n =
      (g.resources.lookup n).map (fun r =>
        match (params_by_resource sps).lookup n with
        | some params => { r with search_parameters := params }
        | none => r) := by
  unfold add_search_parameters
  exact lookup_map_attach g.resources (params_by_resource sps) n

theorem asp_primitives (g : TypeGraph) (sps : List Json) :
    (add_search_parameters g sps).primitives = g.primitives := rfl

theorem asp_datatypes (g : TypeGraph) (sps : List Json) :
    (add_search_parameters g sps).datatypes = g.datatypes := rfl

theorem asp_profiles (g : TypeGraph) (sps : List Json) :
    (add_search_parameters g sps).profiles = g.profiles := rfl

/-! ## Projections of the built graph -/
theorem build_isOk (v : FhirVersion) (p0 : StructureDefinitionParser)
    (sds sps : List Json) (pkgs : List String) :
    (build v p0 sds sps pkgs).1.isOk = true := rfl

theorem build_primitives (v : FhirVersion) (p0 : StructureDefinitionParser)
    (sds sps : List Json) (pkgs : List String) (g : TypeGraph)
    (h : (build v p0 sds sps pkgs).1 = .ok g) :
    g.primitives = ((categorize_structures sds).2.2.foldl prim_step
      (TypeGraph.new v, p0)).1.primitives := by
  unfold build at h
  simp only [] at h
  injection h with h'
  subst h'
  exact (foldl_proj_eq res_step (fun acc => acc.1.primitives)
      res_step_primitives _ _).trans
    (foldl_proj_eq dt_step (fun acc => acc.1.primitives)
      dt_step_primitives _ _)

theorem build_datatypes (v : FhirVersion) (p0 : StructureDefinitionParser)
    (sds sps : List Json) (pkgs : List String) (g : TypeGraph)
    (h : (build v p0 sds sps pkgs).1 = .ok g) :
    g.datatypes = ((categorize_structures sds).2.1.foldl dt_step
      ((categorize_structures sds).2.2.foldl prim_step
        (TypeGraph.new v, p0))).1.datatypes := by
  unfold build at h
  simp only [] at h
  injection h with h'
  subst h'
  exact foldl_proj_eq res_step (fun acc => acc.1.datatypes)
    res_step_datatypes _ _

theorem build_resources_lookup (v : FhirVersion)
    (p0 : StructureDefinitionParser) (sds sps : List Json)
    (pkgs : List String) (g : TypeGraph) (n : String)
    (h : (build v p0 sds sps pkgs).1 = .ok g) :
    g.resources.lookup n =
      ((((categorize_structures sds).1.foldl res_step
          ((categorize_structures sds).2.1.foldl dt_step
            ((categorize_structures sds).2.2.foldl prim_step
              (TypeGraph.new v, p0)))).1).resources.lookup n).map (fun r =>
        match (params_by_resource sps).lookup n with
        | some params => { r with search_parameters := params }
        | none => r) := by
  unfold build at h
  simp only [] at h
  injection h with h'
  subst h'
  exact asp_resources_lookup _ sps n

theorem build_profiles (v : FhirVersion) (p0 : StructureDefinitionParser)
    (sds sps : List Json) (pkgs : List String) (g : TypeGraph)
    (h : (build v p0 sds sps pkgs).1 = .ok g) :
    g.profiles = [] := by
  unfold build at h
  simp only [] at h
  injection h with h'
  subst h'
  exact (foldl_proj_eq res_step (fun acc => acc.1.profiles)
      res_step_profiles _ _).trans
    ((foldl_proj_eq dt_step (fun acc => acc.1.profiles)
      dt_step_profiles _ _).trans
    (foldl_proj_eq prim_step (fun acc => acc.1.profiles)
      prim_step_profiles _ _))

/-- C7: the build never aborts on a per-item conversion failure: it
always returns a graph; the primitives map is fully determined by the
primitives stage (processed first), the datatypes map by the primitives
and datatypes stages; and each bucket item is present in its map exactly
when its conversion succeeds (resources additionally receive their
search parameters, all other fields unchanged). -/
theorem claim_C7 :
    ∀ (v : FhirVersion) (p0 : StructureDefinitionParser) (sds sps : List Json)
      (pkgs : List String),
      (∃ g, (build v p0 sds sps pkgs).1 = .ok g) ∧
      (∀ g, (build v p0 sds sps pkgs).1 = .ok g →
        (g.primitives = ((categorize_structures sds).2.2.foldl prim_step
          (TypeGraph.new v, p0)).1.primitives) ∧
        (g.datatypes = ((categorize_structures sds).2.1.foldl dt_step
          ((categorize_structures sds).2.2.foldl prim_step
            (TypeGraph.new v, p0))).1.datatypes) ∧
        (∀ n sd, (n, sd) ∈ (categorize_structures sds).2.2 →
          (∀ prim, (process_primitive p0 sd).1 = .ok prim →
            g.primitives.lookup n = some prim) ∧
          ((process_primitive p0 sd).1.isOk = false →
            g.primitives.lookup n = none)) ∧
        (∀ n sd, (n, sd) ∈ (categorize_structures sds).2.1 →
          (∀ dt, (process_datatype p0 sd).1 = .ok dt →
            g.datatypes.lookup n = some dt) ∧
          ((process_datatype p0 sd).1.isOk = false →
            g.datatypes.lookup n = none)) ∧
        (∀ n sd, (n, sd) ∈ (categorize_structures sds).1 →
          (∀ rt, (process_resource p0 sd).1 = .ok rt →
            ∃ rt', g.resources.lookup n = some rt' ∧
              rt'.name = rt.name ∧ rt'.base = rt.base ∧
              rt'.properties = rt.properties ∧ rt'.url = rt.url ∧
              rt'.is_abstract = rt.is_abstract) ∧
          ((process_resource p0 sd).1.isOk = false →
            g.resources.lookup n = none))) := by
  intro v p0 sds sps pkgs
  refine ⟨⟨_, rfl⟩, ?_⟩
  intro g hg
  rcases categorize_nodup sds with ⟨hndr, hndd, hndp⟩
  refine ⟨build_primitives v p0 sds sps pkgs g hg,
    build_datatypes v p0 sds sps pkgs g hg, ?_, ?_, ?_⟩
  · intro n sd hmem
    have hf := prim_fold_found (categorize_structures sds).2.2
      (TypeGraph.new v, p0) n sd p0 hmem hndp
    rw [build_primitives v p0 sds sps pkgs g hg]
    exact ⟨hf.1, fun hfail => hf.2 hfail⟩
  · intro n sd hmem
    have hf := dt_fold_found (categorize_structures sds).2.1
      ((categorize_structures sds).2.2.foldl prim_step (TypeGraph.new v, p0))
      n sd p0 hmem hndd
    rw [build_datatypes v p0 sds sps pkgs g hg]
    refine ⟨hf.1, fun hfail => ?_⟩
    rw [hf.2 hfail]
    have hdtp : ((categorize_structures sds).2.2.foldl prim_step
        (TypeGraph.new v, p0)).1.datatypes = [] :=
      foldl_proj_eq prim_step (fun acc => acc.1.datatypes)
        prim_step_datatypes _ _
    rw [hdtp]
    rfl
  · intro n sd hmem
    have hf := res_fold_found (categorize_structures sds).1
      ((categorize_structures sds).2.1.foldl dt_step
        ((categorize_structures sds).2.2.foldl prim_step
          (TypeGraph.new v, p0)))
      n sd p0 hmem hndr
    constructor
    · intro rt hrt
      rw [build_resources_lookup v p0 sds sps pkgs g n hg, hf.1 rt hrt]
      cases hgp : (params_by_resource sps).lookup n with
      | some params =>
        exact ⟨{ rt with search_parameters := params }, by simp [hgp],
          rfl, rfl, rfl, rfl, rfl⟩
      | none =>
        exact ⟨rt, by simp [hgp], rfl, rfl, rfl, rfl, rfl⟩
    · intro hfail
      rw [build_resources_lookup v p0 sds sps pkgs g n hg, hf.2 hfail]
      have hres : ((categorize_structures sds).2.1.foldl dt_step
          ((categorize_structures sds).2.2.foldl prim_step
            (TypeGraph.new v, p0))).1.resources = [] :=
        (foldl_proj_eq dt_step (fun acc => acc.1.resources)
          dt_step_resources _ _).trans
        (foldl_proj_eq prim_step (fun acc => acc.1.resources)
          prim_step_resources _ _)
      rw [hres]
      rfl

/-- C6 refuted as stated: two parseable documents sharing the name `X`,
one of kind `resource` and one of kind `complex-type`, build to a graph
in which `X` appears in both the resources and the datatypes map. -/
theorem claim_C6_counterexample :
    ((build FhirVersion.r4 ⟨[]⟩
        [.obj [("resourceType", .str "StructureDefinition"),
               ("url", .str "u1"), ("name", .str "X"),
               ("kind", .str "resource"),
               ("snapshot", .obj [("element", .arr
                 [.obj [("path", .str "X")]])])],
         .obj [("resourceType", .str "StructureDefinition"),
               ("url", .str "u2"), ("name", .str "X"),
               ("kind", .str "complex-type"),
               ("snapshot", .obj [("element", .arr
                 [.obj [("path", .str "X")]])])]] [] []).1.map (fun g =>
      ((g.resources.lookup "X").isSome, (g.datatypes.lookup "X").isSome))) =
      .ok (true, true) := rfl

/-- C6 amended: `total_types` always equals the sum of the four map
sizes, the profiles map is never populated by `build`, and, provided no
two input documents of different kinds share a name (the kind buckets
have pairwise disjoint key sets), each name appears in at most one of
the four maps. -/
theorem claim_C6 :
    ∀ (v : FhirVersion) (p0 : StructureDefinitionParser) (sds sps : List Json)
      (pkgs : List String),
      (∀ n : String,
        ¬(n ∈ (categorize_structures sds).1.map Prod.fst ∧
          n ∈ (categorize_structures sds).2.1.map Prod.fst) ∧
        ¬(n ∈ (categorize_structures sds).1.map Prod.fst ∧
          n ∈ (categorize_structures sds).2.2.map Prod.fst) ∧
        ¬(n ∈ (categorize_structures sds).2.1.map Prod.fst ∧
          n ∈ (categorize_structures sds).2.2.map Prod.fst)) →
      ∀ g, (build v p0 sds sps pkgs).1 = .ok g →
        (∀ n : String,
          ((g.resources.lookup n).isSome = true →
            g.datatypes.lookup n = none ∧ g.primitives.lookup n = none ∧
            g.profiles.lookup n = none) ∧
          ((g.datatypes.lookup n).isSome = true →
            g.primitives.lookup n = none ∧ g.profiles.lookup n = none) ∧
          ((g.primitives.lookup n).isSome = true →
            g.profiles.lookup n = none)) ∧
        g.profiles = [] ∧
        g.total_types = g.resources.length + g.datatypes.length +
          g.primitives.length + g.profiles.length := by
  intro v p0 sds sps pkgs hdisj g hg
  have hprof := build_profiles v p0 sds sps pkgs g hg
  have hres_mem : ∀ n, g.resources.lookup n ≠ none →
      n ∈ (categorize_structures sds).1.map Prod.fst := by
    intro n hne
    rw [build_resources_lookup v p0 sds sps pkgs g n hg] at hne
    have h3 : ((((categorize_structures sds).1.foldl res_step
        ((categorize_structures sds).2.1.foldl dt_step
          ((categorize_structures sds).2.2.foldl prim_step
            (TypeGraph.new v, p0)))).1).resources.lookup n) ≠ none := by
      intro h0
      rw [h0] at hne
      exact hne rfl
    rcases res_fold_keys _ _ n h3 with hmem | hinit
    · exact hmem
    · exfalso
      apply hinit
      have hz : ((categorize_structures sds).2.1.foldl dt_step
          ((categorize_structures sds).2.2.foldl prim_step
            (TypeGraph.new v, p0))).1.resources = [] :=
        (foldl_proj_eq dt_step (fun acc => acc.1.resources)
          dt_step_resources _ _).trans
        (foldl_proj_eq prim_step (fun acc => acc.1.resources)
          prim_step_resources _ _)
      rw [hz]
      rfl
  have hdt_mem : ∀ n, g.datatypes.lookup n ≠ none →
      n ∈ (categorize_structures sds).2.1.map Prod.fst := by
    intro n hne
    rw [build_datatypes v p0 sds sps pkgs g hg] at hne
    rcases dt_fold_keys _ _ n hne with hmem | hinit
    · exact hmem
    · exfalso
      apply hinit
      have hz : ((categorize_structures sds).2.2.foldl prim_step
          (TypeGraph.new v, p0)).1.datatypes = [] :=
        foldl_proj_eq prim_step (fun acc => acc.1.datatypes)
          prim_step_datatypes _ _
      rw [hz]
      rfl
  have hprim_mem : ∀ n, g.primitives.lookup n ≠ none →
      n ∈ (categorize_structures sds).2.2.map Prod.fst := by
    intro n hne
    rw [build_primitives v p0 sds sps pkgs g hg] at hne
    rcases prim_fold_keys _ _ n hne with hmem | hinit
    · exact hmem
    · exact absurd rfl hinit
  refine ⟨?_, hprof, rfl⟩
  intro n
  refine ⟨?_, ?_, ?_⟩
  · intro hr
    have hmem : n ∈ (categorize_structures sds).1.map Prod.fst := by
      apply hres_mem
      intro h0
      rw [h0] at hr
      cases hr
    refine ⟨?_, ?_, by rw [hprof]; rfl⟩
    · by_contra hne0
      exact (hdisj n).1 ⟨hmem, hdt_mem n hne0⟩
    · by_contra hne0
      exact (hdisj n).2.1 ⟨hmem, hprim_mem n hne0⟩
  · intro hd
    have hmem : n ∈ (categorize_structures sds).2.1.map Prod.fst := by
      apply hdt_mem
      intro h0
      rw [h0] at hd
      cases hd
    refine ⟨?_, by rw [hprof]; rfl⟩
    by_contra hne0
    exact (hdisj n).2.2 ⟨hmem, hprim_mem n hne0⟩
  · intro _
    rw [hprof]
    rfl

/-- Witness for C6: on `c6w_docs` the bucket key sets are pairwise
disjoint, and the built graph satisfies the amended invariant. -/
theorem claim_C6_witness :
    (∀ n : String,
      ¬(n ∈ (categorize_structures c6w_docs).1.map Prod.fst ∧
        n ∈ (categorize_structures c6w_docs).2.1.map Prod.fst) ∧
      ¬(n ∈ (categorize_structures c6w_docs).1.map Prod.fst ∧
        n ∈ (categorize_structures c6w_docs).2.2.map Prod.fst) ∧
      ¬(n ∈ (categorize_structures c6w_docs).2.1.map Prod.fst ∧
        n ∈ (categorize_structures c6w_docs).2.2.map Prod.fst)) ∧
    (∀ g, (build FhirVersion.r4 ⟨[]⟩ c6w_docs [] []).1 = .ok g →
      (∀ n : String,
        ((g.resources.lookup n).isSome = true →
          g.datatypes.lookup n = none ∧ g.primitives.lookup n = none ∧
          g.profiles.lookup n = none) ∧
        ((g.datatypes.lookup n).isSome = true →
          g.primitives.lookup n = none ∧ g.profiles.lookup n = none) ∧
        ((g.primitives.lookup n).isSome = true →
          g.profiles.lookup n = none)) ∧
      g.profiles = [] ∧
      g.total_types = g.resources.length + g.datatypes.length +
        g.primitives.length + g.profiles.length) := by
  have hdisj : ∀ n : String,
      ¬(n ∈ (categorize_structures c6w_docs).1.map Prod.fst ∧
        n ∈ (categorize_structures c6w_docs).2.1.map Prod.fst) ∧
      ¬(n ∈ (categorize_structures c6w_docs).1.map Prod.fst ∧
        n ∈ (categorize_structures c6w_docs).2.2.map Prod.fst) ∧
      ¬(n ∈ (categorize_structures c6w_docs).2.1.map Prod.fst ∧
        n ∈ (categorize_structures c6w_docs).2.2.map Prod.fst) := by
    intro n
    rw [show (categorize_structures c6w_docs).1.map Prod.fst = ["X"] from rfl,
        show (categorize_structures c6w_docs).2.1.map Prod.fst =
          ([] : List String) from rfl,
        show (categorize_structures c6w_docs).2.2.map Prod.fst = ["Y"]
          from rfl]
    refine ⟨?_, ?_, ?_⟩
    · rintro ⟨_, h2⟩
      exact List.not_mem_nil n h2
    · rintro ⟨h1, h2⟩
      rw [List.mem_singleton] at h1 h2
      subst h1
      exact absurd h2 (by decide)
    · rintro ⟨h1, _⟩
      exact List.not_mem_nil n h1
  exact ⟨hdisj, claim_C6 FhirVersion.r4 ⟨[]⟩ c6w_docs [] [] hdisj⟩

/-- Witness for C7: building from one good and one malformed
primitive-type document succeeds, drops only the malformed one, and
keeps the good one. -/
theorem claim_C7_witness :
    (build FhirVersion.r4 ⟨[]⟩ [c7w_good, c7w_bad] [] []).1.map (fun g =>
      (g.primitives.lookup "Pbad", g.primitives.lookup "Pgood")) =
      .ok (none, some c7w_prim) := by
  rcases claim_C7 FhirVersion.r4 ⟨[]⟩ [c7w_good, c7w_bad] [] []
    with ⟨⟨g, hg⟩, hall⟩
  have hspec := hall g hg
  have hgoodmem : ("Pgood", c7w_good) ∈
      (categorize_structures [c7w_good, c7w_bad]).2.2 := by
    rw [show (categorize_structures [c7w_good, c7w_bad]).2.2 =
      [("Pgood", c7w_good), ("Pbad", c7w_bad)] from rfl]
    exact List.mem_cons_self _ _
  have hbadmem : ("Pbad", c7w_bad) ∈
      (categorize_structures [c7w_good, c7w_bad]).2.2 := by
    rw [show (categorize_structures [c7w_good, c7w_bad]).2.2 =
      [("Pgood", c7w_good), ("Pbad", c7w_bad)] from rfl]
    exact List.mem_cons_of_mem _ (List.mem_cons_self _ _)
  have hbad := (hspec.2.2.1 "Pbad" c7w_bad hbadmem).2 rfl
  have hgood := (hspec.2.2.1 "Pgood" c7w_good hgoodmem).1 c7w_prim rfl
  rw [hg, except_map_ok, hbad, hgood]

/-! ## Serialization round-trip lemmas -/
theorem json_opt_not_null {α : Type} (f : Json → Option α) (v : Json)
    (h : v ≠ Json.null) : json_opt f v = (f v).map some := by
  cases v with
  | null => exact absurd rfl h
  | bool b => rfl
  | num n => rfl
  | str s => rfl
  | arr l => rfl
  | obj e => rfl

theorem json_opt_round {α : Type} (f : Json → Option α) (g : α → Json)
    (o : Option α) (hf : ∀ a, o = some a → f (g a) = some a)
    (hnn : ∀ a, g a ≠ Json.null) :
    json_opt f (json_of_opt g o) = some o := by
  cases o with
  | none => rfl
  | some a =>
    rw [show json_of_opt g (some a) = g a from rfl,
        json_opt_not_null f (g a) (hnn a), hf a rfl]
    rfl

theorem json_u32_round (n : Nat) (h : n < 2 ^ 32) :
    json_to_u32 (Json.num ((n : Nat) : Int)) = some n := by
  simp only [json_to_u32]
  rw [if_pos]
  · simp
  · refine ⟨by omega, ?_⟩
    simpa using h

theorem option_list_round {α : Type} (f : Json → Option α) (g : α → Json)
    (l : List α) (h : ∀ x ∈ l, f (g x) = some x) :
    option_list f (l.map g) = some l := by
  induction l with
  | nil => rfl
  | cons hd tl ih =>
    have hh := h hd (List.mem_cons_self hd tl)
    have ht := ih (fun x hx => h x (List.mem_cons_of_mem hd hx))
    simp only [List.map_cons, option_list]
    rw [hh, ht]

theorem option_pairs_round {α : Type} (f : Json → Option α) (g : α → Json)
    (l : List (String × α)) (h : ∀ p ∈ l, f (g p.2) = some p.2) :
    option_pairs f (l.map (fun p => (p.1, g p.2))) = some l := by
  induction l with
  | nil => rfl
  | cons hd tl ih =>
    rcases hd with ⟨k, v⟩
    have hh := h (k, v) (List.mem_cons_self _ _)
    have ht := ih (fun p hp => h p (List.mem_cons_of_mem _ hp))
    simp only [List.map_cons, option_pairs]
    rw [hh, ht]

theorem fhirversion_round (v : FhirVersion) :
    FhirVersion.from_json (FhirVersion.to_json v) = some v := by
  cases v <;> rfl

theorem bindingstrength_round (s : BindingStrength) :
    BindingStrength.from_json (BindingStrength.to_json s) = some s := by
  cases s <;> rfl

theorem severity_round (s : ConstraintSeverity) :
    ConstraintSeverity.from_json (ConstraintSeverity.to_json s) = some s := by
  cases s <;> rfl

theorem spt_round (t : SearchParamType) :
    SearchParamType.from_json (SearchParamType.to_json t) = some t := by
  cases t <;> rfl

theorem cardinality_round (c : CardinalityRange) (h : c.wfb = true) :
    CardinalityRange.from_json (CardinalityRange.to_json c) = some c := by
  rcases c with ⟨mn, mx⟩
  simp only [CardinalityRange.wfb, Bool.and_eq_true, decide_eq_true_eq] at h
  cases mx with
  | none =>
    simp [CardinalityRange.from_json, CardinalityRange.to_json, Json.get,
      List.lookup, json_get_opt, json_opt, json_of_opt, json_u32_round mn h.1]
  | some m =>
    have hm : m < 2 ^ 32 := by simpa using h.2
    simp [CardinalityRange.from_json, CardinalityRange.to_json, Json.get,
      List.lookup, json_get_opt, json_opt, json_of_opt, json_u32_round mn h.1,
      json_u32_round m hm]

theorem example_round (e : Example) :
    Example.from_json (Example.to_json e) = some e := by
  rcases e with ⟨l, v⟩
  rfl

theorem vsb_round (b : ValueSetBinding) :
    ValueSetBinding.from_json (ValueSetBinding.to_json b) = some b := by
  rcases b with ⟨s, vs, d⟩
  cases d <;> cases s <;> rfl

theorem invariant_round (r : InvariantRule) :
    InvariantRule.from_json (InvariantRule.to_json r) = some r := by
  rcases r with ⟨k, sev, h, e, x⟩
  cases e <;> cases x <;> cases sev <;> rfl

theorem documentation_round (d : Documentation) :
    Documentation.from_json (Documentation.to_json d) = some d := by
  rcases d with ⟨s, df, c, r, un, u⟩
  cases c <;> cases r <;> cases u <;>
    simp [Documentation.to_json, Documentation.from_json, Json.get,
      Json.get_str, List.lookup, json_get_opt, json_opt, json_of_opt,
      json_list, Json.as_str,
      option_list_round Json.as_str Json.str un (fun x _ => rfl)]

theorem searchparameter_round (sp : SearchParameter) :
    SearchParameter.from_json (SearchParameter.to_json sp) = some sp := by
  rcases sp with ⟨c, pt, d, e, tts⟩
  cases e <;>
    simp [SearchParameter.to_json, SearchParameter.from_json, Json.get,
      Json.get_str, List.lookup, json_get_opt, json_opt, json_of_opt,
      json_list, Json.as_str, spt_round pt,
      option_list_round Json.as_str Json.str tts (fun x _ => rfl)]

mutual

theorem propertytype_round (pt : PropertyType)
    (h : PropertyType.wfb pt = true) :
    PropertyType.from_json (PropertyType.to_json pt) = some pt := by
  cases pt with
  | primitive tn =>
    simp [PropertyType.to_json, PropertyType.from_json, Json.get,
      List.lookup, Json.as_str]
  | complex tn =>
    simp [PropertyType.to_json, PropertyType.from_json, Json.get,
      List.lookup, Json.as_str]
  | reference tts =>
    simp [PropertyType.to_json, PropertyType.from_json, Json.get,
      List.lookup, Json.as_str, json_list,
      option_list_round Json.as_str Json.str tts (fun x _ => rfl)]
  | backboneElement props =>
    have hps : Property.wfb_list props = true := by
      simpa [PropertyType.wfb] using h
    simp [PropertyType.to_json, PropertyType.from_json, Json.get,
      List.lookup, Json.as_str, Json.as_array,
      property_list_round props hps]
  | choice ts =>
    simp [PropertyType.to_json, PropertyType.from_json, Json.get,
      List.lookup, Json.as_str, json_list,
      option_list_round Json.as_str Json.str ts (fun x _ => rfl)]
termination_by sizeOf pt

theorem property_round (p : Property) (h : Property.wfb p = true) :
    Property.from_json (Property.to_json p) = some p := by
  cases p with
  | mk name path pt card ich cts imod isum b0 cons0 sd defn comm exs =>
    have h2 : CardinalityRange.wfb card = true ∧
        PropertyType.wfb pt = true := by
      simpa [Property.wfb, Bool.and_eq_true] using h
    simp [Property.to_json, Property.from_json, Json.get, List.lookup,
      Json.get_str, Json.as_str, Json.as_bool, json_get_opt, json_list,
      Option.bind, cardinality_round card h2.1, propertytype_round pt h2.2,
      option_list_round Json.as_str Json.str cts (fun x _ => rfl),
      option_list_round InvariantRule.from_json InvariantRule.to_json cons0
        (fun x _ => invariant_round x),
      option_list_round Example.from_json Example.to_json exs
        (fun x _ => example_round x),
      json_opt_round ValueSetBinding.from_json ValueSetBinding.to_json b0
        (fun a _ => vsb_round a) (fun a hn => Json.noConfusion hn),
      json_opt_round Json.as_str Json.str comm (fun a _ => rfl)
        (fun a hn => Json.noConfusion hn)]
termination_by sizeOf p

theorem property_list_round (ps : List Property)
    (h : Property.wfb_list ps = true) :
    Property.from_json_list (Property.to_json_list ps) = some ps := by
  cases ps with
  | nil => simp [Property.to_json_list, Property.from_json_list]
  | cons p tl =>
    have h2 : Property.wfb p = true ∧ Property.wfb_list tl = true := by
      simpa [Property.wfb_list, Bool.and_eq_true] using h
    simp only [Property.to_json_list, Property.from_json_list]
    rw [property_round p h2.1, property_list_round tl h2.2]
termination_by sizeOf ps

end

theorem primitivetype_round (p : PrimitiveType) :
    PrimitiveType.from_json (PrimitiveType.to_json p) = some p := by
  rcases p with ⟨n, b, pat, d, u⟩
  simp [PrimitiveType.to_json, PrimitiveType.from_json, Json.get,
    List.lookup, Json.get_str, Json.as_str, json_get_opt, Option.bind,
    documentation_round d,
    json_opt_round Json.as_str Json.str b (fun a _ => rfl)
      (fun a hn => Json.noConfusion hn),
    json_opt_round Json.as_str Json.str pat (fun a _ => rfl)
      (fun a hn => Json.noConfusion hn)]

theorem resourcetype_round (r : ResourceType)
    (h : ResourceType.wfb r = true) :
    ResourceType.from_json (ResourceType.to_json r) = some r := by
  rcases r with ⟨n, b, props, sps, d, u, ab⟩
  have hp : Property.wfb_list props = true := by
    simpa [ResourceType.wfb] using h
  simp [ResourceType.to_json, ResourceType.from_json, Json.get, List.lookup,
    Json.get_str, Json.as_str, Json.as_bool, json_get_opt, json_list,
    json_plist, Option.bind, property_list_round props hp,
    documentation_round d,
    option_list_round SearchParameter.from_json SearchParameter.to_json sps
      (fun x _ => searchparameter_round x),
    json_opt_round Json.as_str Json.str b (fun a _ => rfl)
      (fun a hn => Json.noConfusion hn)]

theorem datatype_round (dt : DataType) (h : DataType.wfb dt = true) :
    DataType.from_json (DataType.to_json dt) = some dt := by
  rcases dt with ⟨n, b, props, d, u, ab⟩
  have hp : Property.wfb_list props = true := by
    simpa [DataType.wfb] using h
  simp [DataType.to_json, DataType.from_json, Json.get, List.lookup,
    Json.get_str, Json.as_str, Json.as_bool, json_get_opt, json_list,
    json_plist, Option.bind, property_list_round props hp,
    documentation_round d,
    json_opt_round Json.as_str Json.str b (fun a _ => rfl)
      (fun a hn => Json.noConfusion hn)]

theorem propertyconstraint_round (pc : PropertyConstraint)
    (h : PropertyConstraint.wfb pc = true) :
    PropertyConstraint.from_json (PropertyConstraint.to_json pc) = some pc := by
  rcases pc with ⟨pa, c0, tc, b0, ms⟩
  have hc : ∀ a, c0 = some a → CardinalityRange.wfb a = true := by
    intro a ha
    subst ha
    simpa [PropertyConstraint.wfb] using h
  simp [PropertyConstraint.to_json, PropertyConstraint.from_json, Json.get,
    List.lookup, Json.get_str, Json.as_str, Json.as_bool, json_get_opt,
    json_list, Option.bind,
    option_list_round Json.as_str Json.str tc (fun x _ => rfl),
    json_opt_round CardinalityRange.from_json CardinalityRange.to_json c0
      (fun a ha => cardinality_round a (hc a ha))
      (fun a hn => Json.noConfusion hn),
    json_opt_round ValueSetBinding.from_json ValueSetBinding.to_json b0
      (fun a _ => vsb_round a) (fun a hn => Json.noConfusion hn)]

theorem profiletype_round (p : ProfileType) (h : ProfileType.wfb p = true) :
    ProfileType.from_json (ProfileType.to_json p) = some p := by
  rcases p with ⟨n, b, pcs, nps, d, u⟩
  have hsplit : (∀ x ∈ pcs, PropertyConstraint.wfb x = true) ∧
      Property.wfb_list nps = true := by
    simpa [ProfileType.wfb, Bool.and_eq_true, List.all_eq_true] using h
  simp [ProfileType.to_json, ProfileType.from_json, Json.get, List.lookup,
    Json.get_str, Json.as_str, json_get_opt, json_list, json_plist,
    Option.bind, property_list_round nps hsplit.2, documentation_round d,
    option_list_round PropertyConstraint.from_json PropertyConstraint.to_json
      pcs (fun x hx => propertyconstraint_round x (hsplit.1 x hx))]

theorem metadata_round (m : GraphMetadata) :
    GraphMetadata.from_json (GraphMetadata.to_json m) = some m := by
  rcases m with ⟨ga, gv, sp, c⟩
  simp [GraphMetadata.to_json, GraphMetadata.from_json, Json.get, List.lookup,
    Json.get_str, Json.as_str, Json.as_obj, json_list, Option.bind,
    option_list_round Json.as_str Json.str sp (fun x _ => rfl)]

/-- C9 confirmed: for any type graph whose `u32` fields are in range
(true of every graph the program builds, whose cardinalities are reduced
mod `2^32` by the parser), deserializing its serialization yields the
graph back, the four name-keyed maps in their original insertion
order. -/
theorem claim_C9 (g : TypeGraph) (h : TypeGraph.wfb g = true) :
    TypeGraph.from_json (TypeGraph.to_json g) = some g := by
  rcases g with ⟨rs, ds, ps, pf, fv, md⟩
  have hsplit : ((∀ p ∈ rs, ResourceType.wfb p.2 = true) ∧
      (∀ p ∈ ds, DataType.wfb p.2 = true)) ∧
      (∀ p ∈ pf, ProfileType.wfb p.2 = true) := by
    simpa [TypeGraph.wfb, Bool.and_eq_true, List.all_eq_true] using h
  simp [TypeGraph.to_json, TypeGraph.from_json, Json.get, List.lookup,
    Json.as_obj, Option.bind, fhirversion_round fv, metadata_round md,
    option_pairs_round ResourceType.from_json ResourceType.to_json rs
      (fun p hp => resourcetype_round p.2 (hsplit.1.1 p hp)),
    option_pairs_round DataType.from_json DataType.to_json ds
      (fun p hp => datatype_round p.2 (hsplit.1.2 p hp)),
    option_pairs_round PrimitiveType.from_json PrimitiveType.to_json ps
      (fun p _ => primitivetype_round p.2),
    option_pairs_round ProfileType.from_json ProfileType.to_json pf
      (fun p hp => profiletype_round p.2 (hsplit.2 p hp))]

/-- Witness for C9: the concrete one-resource graph is in range and
round-trips through serialization. -/
theorem claim_C9_witness :
    TypeGraph.wfb c9w_graph = true ∧
    TypeGraph.from_json (TypeGraph.to_json c9w_graph) = some c9w_graph :=
  ⟨rfl, claim_C9 c9w_graph rfl⟩

end Octofhir
